import Mathlib

/-!
Verification development for the Quizly backend quiz-generation pipeline
(`quiz_app/api/services.py`, `quiz_app/api/serializers.py`).

The Python service layer is shallowly embedded: pure string manipulation is
translated to functions over `List Char`, fallible Python code (`raise
ValueError` etc.) becomes `Except`, external collaborators (yt-dlp, Whisper,
Gemini, the database) are modelled as explicit inputs, and the orchestrator
threads a world state (scratch files plus database rows) and an event trace.
-/

namespace Quizly

/-! ## Python error kinds

Expected failures in the service layer are `ValueError`s carrying a message
(the spec's typed error taxonomy).  Python's dynamic typing can also raise
`TypeError` / `KeyError` from `in` / subscript on ill-typed values, and the
transcription step can re-raise a `FileNotFoundError`; database failures are
generic exceptions.  All are distinguished here because the HTTP layer maps
`ValueError` to 400 and everything else to 500. -/

inductive PyErr where
  | valueError (msg : String)
  | typeError
  | keyError
  | fileNotFoundError (msg : String)
  | dbError
deriving DecidableEq, Repr

/-! ## URL normalizer (`extract_youtube_id`, `YOUTUBE_CANONICAL`) -/

/-- Characters of the regex class `[A-Za-z0-9_-]`. -/
def isIdChar (c : Char) : Bool :=
  c.isAlpha || c.isDigit || c = '_' || c = '-'

/-- Literal-prefix test (the nested match keeps reduction structural in the
needle, so `listStartsWith [] l` reduces even for an open `l`). -/
def listStartsWith : List Char → List Char → Bool
  | [], _ => true
  | n :: ns, cs => match cs with
    | [] => false
    | c :: cs => n == c && listStartsWith ns cs

/-- Python substring test `needle in hay` for strings, on char lists. -/
def hasSubstr (needle : List Char) : List Char → Bool
  | [] => needle.isEmpty
  | c :: rest => listStartsWith needle (c :: rest) || hasSubstr needle rest

/-- One attempted match of the regex `[?&]v=([A-Za-z0-9_-]{11})` anchored at
the start of `cs`; returns the captured group. -/
def matchVAt : List Char → Option (List Char)
  | c₁ :: c₂ :: c₃ :: rest =>
    if (c₁ = '?' ∨ c₁ = '&') ∧ c₂ = 'v' ∧ c₃ = '=' ∧
        11 ≤ rest.length ∧ (rest.take 11).all isIdChar
    then some (rest.take 11) else none
  | _ => none

/-- `re.search(r"[?&]v=([A-Za-z0-9_-]{11})", url)`: try each position left to
right. -/
def searchV : List Char → Option (List Char)
  | [] => none
  | c :: rest => (matchVAt (c :: rest)).orElse fun _ => searchV rest

/-- The `{11}` tail shared by both alternatives of the second regex. -/
def matchIdAfter (rest : List Char) : Option (List Char) :=
  if 11 ≤ rest.length ∧ (rest.take 11).all isIdChar
  then some (rest.take 11) else none

/-- One attempted match of `(youtu\.be/|embed/)([A-Za-z0-9_-]{11})` anchored at
the start of `cs` (the two alternatives start with distinct characters, so no
backtracking interplay exists); returns the second capture group. -/
def matchHostAt (cs : List Char) : Option (List Char) :=
  if listStartsWith "youtu.be/".toList cs then matchIdAfter (cs.drop 9)
  else if listStartsWith "embed/".toList cs then matchIdAfter (cs.drop 6)
  else none

/-- `re.search` for the second pattern. -/
def searchHost : List Char → Option (List Char)
  | [] => none
  | c :: rest => (matchHostAt (c :: rest)).orElse fun _ => searchHost rest

/-- `extract_youtube_id` from `services.py`: host-token guard, then the two
regex searches, with the two `ValueError` messages of the source. -/
def extract_youtube_id (url : String) : Except String String :=
  if url = "" ∨ (¬ hasSubstr "youtube".toList url.toList ∧
                 ¬ hasSubstr "youtu.be".toList url.toList)
  then .error "Unsupported URL."
  else
    match searchV url.toList with
    | some v => .ok (String.mk v)
    | none =>
      match searchHost url.toList with
      | some v => .ok (String.mk v)
      | none => .error "Could not extract YouTube video id."

/-- `YOUTUBE_CANONICAL.format(vid=vid)`. -/
def YOUTUBE_CANONICAL (vid : String) : String :=
  "https://www.youtube.com/watch?v=" ++ vid

/-- `YOUTUBE_CANONICAL.format(vid=extract_youtube_id(url))`, the composition
used by the orchestrator and (with a different error message) by the
serializers. -/
def normalize_youtube_url (url : String) : Except String String :=
  (extract_youtube_id url).map YOUTUBE_CANONICAL

/-! ### Normalizer lemmas -/

theorem matchVAt_none_of_head {c : Char} (l : List Char)
    (h₁ : c ≠ '?') (h₂ : c ≠ '&') : matchVAt (c :: l) = none := by
  match l with
  | [] => rfl
  | [_] => rfl
  | _ :: _ :: _ =>
    simp only [matchVAt, ite_eq_right_iff]
    rintro ⟨(rfl | rfl), -⟩ <;> simp at h₁ h₂

theorem searchV_cons (c : Char) (l : List Char) :
    searchV (c :: l) = (matchVAt (c :: l)).orElse fun _ => searchV l := rfl

theorem searchHost_cons (c : Char) (l : List Char) :
    searchHost (c :: l) = (matchHostAt (c :: l)).orElse fun _ => searchHost l := rfl

/-- Positions inside a `?`/`&`-free prefix never match the first regex. -/
theorem searchV_append (A l : List Char)
    (h : ∀ c ∈ A, c ≠ '?' ∧ c ≠ '&') :
    searchV (A ++ l) = searchV l := by
  induction A with
  | nil => rfl
  | cons c A ih =>
    have hc := h c (List.mem_cons_self ..)
    rw [List.cons_append, searchV_cons,
        matchVAt_none_of_head _ hc.1 hc.2]
    show searchV (A ++ l) = searchV l
    exact ih fun c hc => h c (List.mem_cons_of_mem _ hc)

/-- A `?`/`&`-free string contains no match of the first regex at all. -/
theorem searchV_none (l : List Char)
    (h : ∀ c ∈ l, c ≠ '?' ∧ c ≠ '&') : searchV l = none := by
  induction l with
  | nil => rfl
  | cons c l ih =>
    have hc := h c (List.mem_cons_self ..)
    rw [searchV_cons, matchVAt_none_of_head _ hc.1 hc.2]
    show searchV l = none
    exact ih fun c hc => h c (List.mem_cons_of_mem _ hc)

theorem searchV_at_mark (id : List Char)
    (hlen : id.length = 11) (hid : id.all isIdChar) :
    searchV ('?' :: 'v' :: '=' :: id) = some id := by
  have htake : id.take 11 = id := List.take_of_length_le (le_of_eq hlen)
  have hm : matchVAt ('?' :: 'v' :: '=' :: id) = some id := by
    have hcond : (('?' = '?' ∨ '?' = '&') ∧ 'v' = 'v' ∧ '=' = '=' ∧
        11 ≤ id.length ∧ (id.take 11).all isIdChar) := by
      refine ⟨Or.inl rfl, rfl, rfl, hlen ▸ le_refl _, ?_⟩
      rw [htake]; exact hid
    show (if _ then _ else _) = _
    rw [if_pos hcond, htake]
  rw [searchV_cons, hm]
  rfl

theorem id_chars_not_marks (id : List Char) (hid : id.all isIdChar) :
    ∀ c ∈ id, c ≠ '?' ∧ c ≠ '&' := by
  intro c hc
  have h := List.all_eq_true.mp hid c hc
  constructor <;> rintro rfl <;> simp [isIdChar] at h

theorem listStartsWith_append_self (n post : List Char) :
    listStartsWith n (n ++ post) = true := by
  induction n with
  | nil => rfl
  | cons c n ih => simpa [listStartsWith] using ih

theorem hasSubstr_of_append (pre n post : List Char) (hn : n ≠ []) :
    hasSubstr n (pre ++ (n ++ post)) = true := by
  induction pre with
  | nil =>
    match n, hn with
    | c :: n, _ =>
      rw [List.nil_append]
      show (listStartsWith (c :: n) ((c :: n) ++ post) || _) = true
      rw [listStartsWith_append_self]
      rfl
  | cons c pre ih =>
    show (_ || hasSubstr n (pre ++ (n ++ post))) = true
    rw [ih]
    exact Bool.or_true _

theorem matchVAt_some {cs v : List Char} (h : matchVAt cs = some v) :
    v.length = 11 ∧ v.all isIdChar := by
  match cs with
  | [] => cases h
  | [_] => cases h
  | [_, _] => cases h
  | c₁ :: c₂ :: c₃ :: rest =>
    simp only [matchVAt] at h
    split at h
    · rename_i hc
      cases h
      exact ⟨by rw [List.length_take]; omega, hc.2.2.2.2⟩
    · cases h

theorem matchIdAfter_some {cs v : List Char} (h : matchIdAfter cs = some v) :
    v.length = 11 ∧ v.all isIdChar := by
  unfold matchIdAfter at h
  split at h
  · rename_i hc
    cases h
    exact ⟨by rw [List.length_take]; omega, hc.2⟩
  · cases h

theorem matchHostAt_some {cs v : List Char} (h : matchHostAt cs = some v) :
    v.length = 11 ∧ v.all isIdChar := by
  unfold matchHostAt at h
  split at h
  · exact matchIdAfter_some h
  · split at h
    · exact matchIdAfter_some h
    · cases h

theorem searchV_wf {l r : List Char} (h : searchV l = some r) :
    r.length = 11 ∧ r.all isIdChar := by
  induction l with
  | nil => cases h
  | cons c rest ih =>
    rw [searchV_cons] at h
    cases hm : matchVAt (c :: rest) with
    | some v =>
      rw [hm] at h
      cases h
      exact matchVAt_some hm
    | none =>
      rw [hm] at h
      exact ih h

theorem searchHost_wf {l r : List Char} (h : searchHost l = some r) :
    r.length = 11 ∧ r.all isIdChar := by
  induction l with
  | nil => cases h
  | cons c rest ih =>
    rw [searchHost_cons] at h
    cases hm : matchHostAt (c :: rest) with
    | some v =>
      rw [hm] at h
      cases h
      exact matchHostAt_some hm
    | none =>
      rw [hm] at h
      exact ih h

theorem searchV_eq_none_of_no_match (l : List Char)
    (h : ∀ s, s <:+ l → matchVAt s = none) : searchV l = none := by
  induction l with
  | nil => rfl
  | cons c rest ih =>
    rw [searchV_cons, h (c :: rest) (List.suffix_refl _)]
    show searchV rest = none
    exact ih fun s hs => h s (hs.trans (List.suffix_cons c rest))

theorem searchHost_eq_none_of_no_match (l : List Char)
    (h : ∀ s, s <:+ l → matchHostAt s = none) : searchHost l = none := by
  induction l with
  | nil => rfl
  | cons c rest ih =>
    rw [searchHost_cons, h (c :: rest) (List.suffix_refl _)]
    show searchHost rest = none
    exact ih fun s hs => h s (hs.trans (List.suffix_cons c rest))

/-- The host-token guard of `extract_youtube_id` passes when one of the two
substrings is present. -/
theorem extract_guard_passes (url : String)
    (hhost : hasSubstr "youtube".toList url.toList = true ∨
             hasSubstr "youtu.be".toList url.toList = true) :
    ¬ (url = "" ∨ (¬ hasSubstr "youtube".toList url.toList ∧
                   ¬ hasSubstr "youtu.be".toList url.toList)) := by
  rintro (rfl | ⟨hy, hb⟩)
  · rcases hhost with h | h <;> exact absurd h (by decide)
  · rcases hhost with h | h
    · exact hy h
    · exact hb h

theorem extract_of_searchV (url : String) (r : List Char)
    (hhost : hasSubstr "youtube".toList url.toList = true ∨
             hasSubstr "youtu.be".toList url.toList = true)
    (hs : searchV url.toList = some r) :
    extract_youtube_id url = .ok (String.mk r) := by
  unfold extract_youtube_id
  rw [if_neg (extract_guard_passes url hhost), hs]

theorem extract_of_searchHost (url : String) (r : List Char)
    (hhost : hasSubstr "youtube".toList url.toList = true ∨
             hasSubstr "youtu.be".toList url.toList = true)
    (hv : searchV url.toList = none) (hs : searchHost url.toList = some r) :
    extract_youtube_id url = .ok (String.mk r) := by
  unfold extract_youtube_id
  rw [if_neg (extract_guard_passes url hhost), hv, hs]

/-- Watch form: `https://www.youtube.com/watch?v=<id>` extracts `<id>`. -/
theorem extract_watch_form (id : String)
    (hlen : id.toList.length = 11) (hid : id.toList.all isIdChar = true) :
    extract_youtube_id ("https://www.youtube.com/watch?v=" ++ id) = .ok id := by
  have hhost : hasSubstr "youtube".toList
      ("https://www.youtube.com/watch?v=" ++ id).toList = true := by
    have hdec : ("https://www.youtube.com/watch?v=" ++ id).toList
        = "https://www.".toList ++ ("youtube".toList ++ (".com/watch?v=".toList ++ id.toList)) := by
      show "https://www.".toList ++ ("youtube".toList ++ (".com/watch?v=".toList ++ id.toList))
          = "https://www.".toList ++ ("youtube".toList ++ (".com/watch?v=".toList ++ id.toList))
      rfl
    rw [hdec]
    exact hasSubstr_of_append _ _ _ (by decide)
  have hs : searchV ("https://www.youtube.com/watch?v=" ++ id).toList = some id.toList := by
    show searchV ('?' :: 'v' :: '=' :: id.toList) = some id.toList
    exact searchV_at_mark _ hlen hid
  exact extract_of_searchV _ _ (Or.inl hhost) hs

/-- Short form: `https://youtu.be/<id>` extracts `<id>`. -/
theorem extract_short_form (id : String)
    (hlen : id.toList.length = 11) (hid : id.toList.all isIdChar = true) :
    extract_youtube_id ("https://youtu.be/" ++ id) = .ok id := by
  have hhost : hasSubstr "youtu.be".toList ("https://youtu.be/" ++ id).toList = true := by
    have hdec : ("https://youtu.be/" ++ id).toList
        = "https://".toList ++ ("youtu.be".toList ++ ("/".toList ++ id.toList)) := rfl
    rw [hdec]
    exact hasSubstr_of_append _ _ _ (by decide)
  have hv : searchV ("https://youtu.be/" ++ id).toList = none := by
    have hdec : ("https://youtu.be/" ++ id).toList
        = "https://youtu.be/".toList ++ id.toList := rfl
    rw [hdec, searchV_append _ _ (by decide)]
    exact searchV_none _ (id_chars_not_marks _ hid)
  have hs : searchHost ("https://youtu.be/" ++ id).toList = some id.toList := by
    show searchHost ('y':: 'o':: 'u':: 't':: 'u':: '.':: 'b':: 'e':: '/'::id.toList) = some id.toList
    rw [searchHost_cons]
    have hm : matchHostAt ('y':: 'o':: 'u':: 't':: 'u':: '.':: 'b':: 'e':: '/'::id.toList)
        = some id.toList := by
      show matchIdAfter id.toList = some id.toList
      have htake : id.toList.take 11 = id.toList :=
        List.take_of_length_le (le_of_eq hlen)
      show (if _ then _ else _) = _
      rw [if_pos ⟨hlen ▸ le_refl _, by rw [htake]; exact hid⟩, htake]
    rw [hm]
    rfl
  exact extract_of_searchHost _ _ (Or.inr hhost) hv hs

/-- Embed form: `https://www.youtube.com/embed/<id>` extracts `<id>`. -/
theorem extract_embed_form (id : String)
    (hlen : id.toList.length = 11) (hid : id.toList.all isIdChar = true) :
    extract_youtube_id ("https://www.youtube.com/embed/" ++ id) = .ok id := by
  have hhost : hasSubstr "youtube".toList
      ("https://www.youtube.com/embed/" ++ id).toList = true := by
    have hdec : ("https://www.youtube.com/embed/" ++ id).toList
        = "https://www.".toList ++ ("youtube".toList ++ (".com/embed/".toList ++ id.toList)) := rfl
    rw [hdec]
    exact hasSubstr_of_append _ _ _ (by decide)
  have hv : searchV ("https://www.youtube.com/embed/" ++ id).toList = none := by
    have hdec : ("https://www.youtube.com/embed/" ++ id).toList
        = "https://www.youtube.com/embed/".toList ++ id.toList := rfl
    rw [hdec, searchV_append _ _ (by decide)]
    exact searchV_none _ (id_chars_not_marks _ hid)
  have hs : searchHost ("https://www.youtube.com/embed/" ++ id).toList = some id.toList := by
    show searchHost ('e':: 'm':: 'b':: 'e':: 'd':: '/'::id.toList) = some id.toList
    rw [searchHost_cons]
    have hm : matchHostAt ('e':: 'm':: 'b':: 'e':: 'd':: '/'::id.toList) = some id.toList := by
      show matchIdAfter id.toList = some id.toList
      have htake : id.toList.take 11 = id.toList :=
        List.take_of_length_le (le_of_eq hlen)
      show (if _ then _ else _) = _
      rw [if_pos ⟨hlen ▸ le_refl _, by rw [htake]; exact hid⟩, htake]
    rw [hm]
    rfl
  exact extract_of_searchHost _ _ (Or.inl hhost) hv hs

/-- Any id produced by `extract_youtube_id` is an 11-character id over
`[A-Za-z0-9_-]`. -/
theorem extract_wf {url vid : String} (h : extract_youtube_id url = .ok vid) :
    vid.toList.length = 11 ∧ vid.toList.all isIdChar = true := by
  unfold extract_youtube_id at h
  split at h
  · cases h
  · cases hv : searchV url.toList with
    | some r =>
      rw [hv] at h
      cases h
      exact searchV_wf hv
    | none =>
      rw [hv] at h
      cases hh : searchHost url.toList with
      | some r =>
        rw [hh] at h
        cases h
        exact searchHost_wf hh
      | none => rw [hh] at h; cases h

/-- Claim C4: for every 11-character id over `[A-Za-z0-9_-]`, the three
supported URL forms (`watch?v=`, `youtu.be/`, `embed/`) all normalize to the
identical canonical URL `https://www.youtube.com/watch?v=<id>`, and the
canonical URL normalizes to itself (idempotence, given by the first
conjunct applied to the canonical form itself). -/
theorem C4_normalizer_form_equivalence (id : String)
    (hlen : id.toList.length = 11) (hid : id.toList.all isIdChar = true) :
    normalize_youtube_url ("https://www.youtube.com/watch?v=" ++ id)
        = .ok ("https://www.youtube.com/watch?v=" ++ id) ∧
    normalize_youtube_url ("https://youtu.be/" ++ id)
        = .ok ("https://www.youtube.com/watch?v=" ++ id) ∧
    normalize_youtube_url ("https://www.youtube.com/embed/" ++ id)
        = .ok ("https://www.youtube.com/watch?v=" ++ id) := by
  refine ⟨?_, ?_, ?_⟩ <;>
    simp only [normalize_youtube_url, extract_watch_form id hlen hid,
      extract_short_form id hlen hid, extract_embed_form id hlen hid,
      Except.map_ok] <;> rfl

/-- Scenario A instance of C4: `https://youtu.be/AAAAAAAAAAA` normalizes to
`https://www.youtube.com/watch?v=AAAAAAAAAAA`, and the result is a fixed
point of normalization. -/
theorem C4_witness :
    normalize_youtube_url "https://youtu.be/AAAAAAAAAAA"
        = .ok "https://www.youtube.com/watch?v=AAAAAAAAAAA" ∧
    normalize_youtube_url "https://www.youtube.com/watch?v=AAAAAAAAAAA"
        = .ok "https://www.youtube.com/watch?v=AAAAAAAAAAA" ∧
    normalize_youtube_url "https://www.youtube.com/embed/AAAAAAAAAAA"
        = .ok "https://www.youtube.com/watch?v=AAAAAAAAAAA" := by
  have h := C4_normalizer_form_equivalence "AAAAAAAAAAA" (by decide) (by decide)
  exact ⟨h.2.1, h.1, h.2.2⟩

/-- Claim C8: a string lacking both host tokens, or containing no position
matching either id pattern, is rejected by `extract_youtube_id` with a
`ValueError` (never an id). -/
theorem C8_invalid_url_rejected (url : String)
    (h : (¬ hasSubstr "youtube".toList url.toList = true ∧
          ¬ hasSubstr "youtu.be".toList url.toList = true)
        ∨ (∀ s, s <:+ url.toList → matchVAt s = none ∧ matchHostAt s = none)) :
    ∃ msg, extract_youtube_id url = .error msg := by
  unfold extract_youtube_id
  split
  · exact ⟨_, rfl⟩
  · rename_i hc
    rcases h with hno | hno
    · exact absurd (Or.inr hno) hc
    · rw [searchV_eq_none_of_no_match _ fun s hs => (hno s hs).1,
          searchHost_eq_none_of_no_match _ fun s hs => (hno s hs).2]
      exact ⟨_, rfl⟩

/-- Witness for C8 at the hostless input `"https://example.com/"`. -/
theorem C8_witness :
    ∃ msg, extract_youtube_id "https://example.com/" = .error msg :=
  C8_invalid_url_rejected _ (Or.inl (by decide))

/-! ## Availability checker (`ensure_video_available`)

The yt-dlp `extract_info` call is an external collaborator; its outcome (a
provider error, or an info dict whose `duration` may be missing) is an input
of the embedded function.  The `raise ValueError('Video too long.')` sits
inside the `try`, but `except (DownloadError, ExtractorError)` does not catch
`ValueError`, so the two error paths stay distinct. -/

inductive FetchErr where
  | downloadError
  | extractorError
deriving DecidableEq, Repr

structure VideoInfo where
  duration : Option Int
deriving DecidableEq, Repr

/-- Python truthiness of `max_duration_sec` / `info.get('duration')`: `None`
and `0` are falsy. -/
def truthyOptInt : Option Int → Bool
  | none => false
  | some n => n != 0

/-- `ensure_video_available` from `services.py` (the returned info dict is the
fetched one). -/
def ensure_video_available (fetched : Except FetchErr VideoInfo)
    (max_duration_sec : Option Int) : Except String VideoInfo :=
  match fetched with
  | .error _ => .error "YouTube video unavailable or invalid."
  | .ok info =>
    if truthyOptInt max_duration_sec ∧ truthyOptInt info.duration ∧
        info.duration.getD 0 > max_duration_sec.getD 0
    then .error "Video too long."
    else .ok info

/-- Counterexample to claim C6: with the duration policy *set* to `0` seconds
and a reported duration of `9000` seconds (strictly exceeding the policy),
the check succeeds instead of failing with `DurationExceeded`, because
`max_duration_sec and ...` treats the set-but-zero policy as falsy. -/
theorem C6_counterexample :
    some (0 : Int) ≠ (none : Option Int) ∧ (9000 : Int) > 0 ∧
    ensure_video_available (.ok ⟨some 9000⟩) (some 0) = .ok ⟨some 9000⟩ := by
  refine ⟨by decide, by decide, rfl⟩

/-- Claim C6 (amended): when the policy is set and nonzero and the reported
duration is present and nonzero, the check fails with the `DurationExceeded`
error exactly when the duration strictly exceeds the policy; a duration less
than or equal to the policy never produces that error. -/
theorem C6_duration_policy (info : VideoInfo) (p d : Int)
    (hd : info.duration = some d) :
    (p ≠ 0 → d ≠ 0 → d > p →
      ensure_video_available (.ok info) (some p) = .error "Video too long.") ∧
    (d ≤ p → ensure_video_available (.ok info) (some p) = .ok info) := by
  constructor
  · intro hp hdz hgt
    have h1 : truthyOptInt (some p) = true := by simp [truthyOptInt, hp]
    have h2 : truthyOptInt info.duration = true := by simp [truthyOptInt, hd, hdz]
    have h3 : info.duration.getD 0 > (some p).getD 0 := by simpa [hd] using hgt
    simp only [ensure_video_available]
    rw [if_pos ⟨h1, h2, h3⟩]
  · intro hle
    have h3 : ¬ (truthyOptInt (some p) = true ∧ truthyOptInt info.duration = true ∧
        info.duration.getD 0 > (some p).getD 0) := by
      rintro ⟨-, -, hgt⟩
      rw [hd] at hgt
      simp only [Option.getD_some] at hgt
      omega
    simp only [ensure_video_available]
    rw [if_neg h3]

/-- Scenario B witness for C6: reported duration 9000s against policy 1800s
fails with `DurationExceeded`. -/
theorem C6_witness :
    ensure_video_available (.ok ⟨some 9000⟩) (some 1800) = .error "Video too long." :=
  (C6_duration_policy ⟨some 9000⟩ 1800 9000 rfl).1 (by decide) (by decide) (by decide)

/-! ## JSON values and Python dynamic semantics

`json.loads` output is embedded as `JsonValue`.  Model simplifications, each
irrelevant to the claims: JSON numbers are integers (floats unmodelled), and
JSON objects are association lists whose lookup takes the *last* binding
(`json.loads` keeps the last duplicate key, and Python dicts cannot hold
duplicates). -/

inductive JsonValue where
  | null
  | bool (b : Bool)
  | num (n : Int)
  | str (s : String)
  | arr (xs : List JsonValue)
  | obj (kvs : List (String × JsonValue))

/-- Python `==` for the comparisons `validate_quiz_dict` can perform: at
least one operand is always a scalar there (option members are checked
hashable — i.e. scalar — by `set()` before any membership test), and in
Python no container compares equal to a scalar, so the container-container
branches are unreachable and collapse to `false`.  Python's numeric
coercion `True == 1`, `False == 0` is modelled. -/
def pyScalarEq : JsonValue → JsonValue → Bool
  | .null, .null => true
  | .bool a, .bool b => a == b
  | .bool a, .num n => (if a then (1 : Int) else 0) == n
  | .num n, .bool b => n == (if b then (1 : Int) else 0)
  | .num a, .num b => a == b
  | .str a, .str b => a == b
  | _, _ => false

/-- Python hashability of a JSON value: lists and dicts are unhashable. -/
def isHashable : JsonValue → Bool
  | .arr _ => false
  | .obj _ => false
  | _ => true

/-- Dict lookup, last binding wins (see module comment). -/
def jLookup : List (String × JsonValue) → String → Option JsonValue
  | [], _ => none
  | kv :: rest, k =>
    match jLookup rest k with
    | some v => some v
    | none => if kv.1 == k then some kv.2 else none

/-- Python `k in d` for a dict. -/
def jHasKey (kvs : List (String × JsonValue)) (k : String) : Bool :=
  (jLookup kvs k).isSome

/-- Python `k in q` where `k` is a string and `q` is an arbitrary value:
key test on dicts, membership on lists, substring on strings, `TypeError`
otherwise. -/
def pyInStr (k : String) (q : JsonValue) : Except PyErr Bool :=
  match q with
  | .obj kvs => .ok (jHasKey kvs k)
  | .arr xs => .ok (xs.any fun x => pyScalarEq x (.str k))
  | .str s => .ok (hasSubstr k.toList s.toList)
  | _ => .error .typeError

/-- Python `q[k]` for a string key: dict lookup (`KeyError` when absent),
`TypeError` on any other value (`list indices must be integers`, `string
indices must be integers`, unsubscriptable scalars). -/
def pyGetItem (q : JsonValue) (k : String) : Except PyErr JsonValue :=
  match q with
  | .obj kvs =>
    match jLookup kvs k with
    | some v => .ok v
    | none => .error .keyError
  | _ => .error .typeError

/-- One step of Python set construction: insert `x` unless an equal member
is already present. -/
def pyInsert (acc : List JsonValue) (x : JsonValue) : List JsonValue :=
  if acc.any fun y => pyScalarEq y x then acc else acc ++ [x]

/-- `len(set(xs))`: `TypeError` when a member is unhashable, else the number
of distinct members under Python equality. -/
def pySetSize (xs : List JsonValue) : Except PyErr Nat :=
  if xs.all isHashable
  then .ok (xs.foldl pyInsert []).length
  else .error .typeError

/-- Pairwise distinctness under Python equality (the claim's notion of
"pairwise distinct"). -/
def pyPairwiseDistinct : List JsonValue → Bool
  | [] => true
  | x :: xs => xs.all (fun y => !(pyScalarEq x y)) && pyPairwiseDistinct xs

/-! ## Quiz validator (`validate_quiz_dict`) -/

/-- `all(k in q for k in ('question_title', 'question_options', 'answer'))`
with Python's left-to-right short-circuit (so a `TypeError` from the first
membership test pre-empts the later ones). -/
def checkMembership (q : JsonValue) : Except PyErr Bool :=
  match pyInStr "question_title" q with
  | .error e => .error e
  | .ok false => .ok false
  | .ok true =>
    match pyInStr "question_options" q with
    | .error e => .error e
    | .ok false => .ok false
    | .ok true => pyInStr "answer" q

/-- The body of the `for q in qs` loop of `validate_quiz_dict`, for one
question, with the source's check order and `ValueError` messages. -/
def checkQuestion (q : JsonValue) : Except PyErr Unit :=
  match checkMembership q with
  | .error e => .error e
  | .ok false =>
    .error (.valueError "Each question must have question_title, question_options, answer.")
  | .ok true =>
    match pyGetItem q "question_options" with
    | .error e => .error e
    | .ok (.arr xs) =>
      if xs.length = 4 then
        match pySetSize xs with
        | .error e => .error e
        | .ok sz =>
          if sz = 4 then
            match pyGetItem q "answer" with
            | .error e => .error e
            | .ok ans =>
              if xs.any fun o => pyScalarEq ans o then .ok ()
              else .error (.valueError "Answer must be one of question_options.")
          else .error (.valueError "Each question must have exactly 4 distinct options.")
      else .error (.valueError "Each question must have exactly 4 distinct options.")
    | .ok _ => .error (.valueError "Each question must have exactly 4 distinct options.")

/-- The `for q in qs` loop. -/
def checkQuestions : List JsonValue → Except PyErr Unit
  | [] => .ok ()
  | q :: rest =>
    match checkQuestion q with
    | .error e => .error e
    | .ok _ => checkQuestions rest

/-- `validate_quiz_dict` from `services.py`. -/
def validate_quiz_dict (d : JsonValue) (num_questions : Nat) : Except PyErr Unit :=
  match d with
  | .obj kvs =>
    if jHasKey kvs "title" ∧ jHasKey kvs "description" ∧ jHasKey kvs "questions" then
      match jLookup kvs "questions" with
      | some (.arr qs) =>
        if qs.length = num_questions then checkQuestions qs
        else .error (.valueError
          ("Quiz must contain exactly " ++ toString num_questions ++ " questions."))
      | some _ => .error (.valueError
          ("Quiz must contain exactly " ++ toString num_questions ++ " questions."))
      | none => .error .keyError
    else .error (.valueError "Quiz JSON must contain title, description, questions.")
  | _ => .error (.valueError "Quiz must be a JSON object.")

/-! ### Acceptance predicate (the claim's characterization) -/

/-- The claim's per-question acceptance condition: an object with the three
keys, whose options are a sequence of exactly 4 pairwise-distinct (and
hashable — see C2's amendment) members containing the answer. -/
def goodQuestion (q : JsonValue) : Bool :=
  match q with
  | .obj kvs =>
    jHasKey kvs "question_title" && jHasKey kvs "question_options" &&
    jHasKey kvs "answer" &&
    (match jLookup kvs "question_options" with
     | some (.arr xs) =>
        xs.length == 4 && xs.all isHashable && pyPairwiseDistinct xs &&
        (match jLookup kvs "answer" with
         | some a => xs.any fun o => pyScalarEq a o
         | none => false)
     | _ => false)
  | _ => false

/-- The claim's top-level acceptance condition. -/
def quizAccepts (d : JsonValue) (n : Nat) : Bool :=
  match d with
  | .obj kvs =>
    jHasKey kvs "title" && jHasKey kvs "description" && jHasKey kvs "questions" &&
    (match jLookup kvs "questions" with
     | some (.arr qs) => qs.length == n && qs.all goodQuestion
     | _ => false)
  | _ => false

/-- Question entries of this shape can only be rejected via `ValueError`:
objects whose options value, when it is a list, has only hashable members. -/
def questionFriendly (q : JsonValue) : Bool :=
  match q with
  | .obj kvs =>
    match jLookup kvs "question_options" with
    | some (.arr xs) => xs.all isHashable
    | _ => true
  | _ => false

/-- Payloads whose question entries are all `questionFriendly`. -/
def quizFriendly (d : JsonValue) : Bool :=
  match d with
  | .obj kvs =>
    match jLookup kvs "questions" with
    | some (.arr qs) => qs.all questionFriendly
    | _ => true
  | _ => true

/-! ### Distinctness: Python set size vs pairwise distinctness -/

theorem pyScalarEq_symm (a b : JsonValue) : pyScalarEq a b = pyScalarEq b a := by
  cases a <;> cases b <;> simp [pyScalarEq] <;> exact eq_comm

theorem pyInsert_length (acc : List JsonValue) (x : JsonValue) :
    (pyInsert acc x).length = acc.length ∨
    (pyInsert acc x).length = acc.length + 1 := by
  unfold pyInsert
  split
  · exact Or.inl rfl
  · right; simp

theorem foldl_pyInsert_length_le (xs acc : List JsonValue) :
    (xs.foldl pyInsert acc).length ≤ acc.length + xs.length := by
  induction xs generalizing acc with
  | nil => simp
  | cons x xs ih =>
    rw [List.foldl_cons]
    rcases pyInsert_length acc x with h | h <;>
      calc (xs.foldl pyInsert (pyInsert acc x)).length
          ≤ (pyInsert acc x).length + xs.length := ih _
        _ ≤ acc.length + (x :: xs).length := by
            rw [h]; simp only [List.length_cons]; omega

theorem foldl_pyInsert_length_eq_iff (xs acc : List JsonValue) :
    ((xs.foldl pyInsert acc).length = acc.length + xs.length) ↔
      (pyPairwiseDistinct xs = true ∧
       ∀ x ∈ xs, ∀ y ∈ acc, pyScalarEq y x = false) := by
  induction xs generalizing acc with
  | nil => simp [pyPairwiseDistinct]
  | cons x xs ih =>
    rw [List.foldl_cons]
    by_cases hmem : acc.any (fun y => pyScalarEq y x) = true
    · have hins : pyInsert acc x = acc := by unfold pyInsert; rw [if_pos hmem]
      rw [hins]
      constructor
      · intro h
        have hle := foldl_pyInsert_length_le xs acc
        simp only [List.length_cons] at h
        omega
      · rintro ⟨-, hfree⟩
        obtain ⟨y, hy, hyx⟩ := List.any_eq_true.mp hmem
        exact absurd (hfree x (List.mem_cons_self ..) y hy) (by simp [hyx])
    · have hfree : ∀ y ∈ acc, pyScalarEq y x = false := by
        intro y hy
        by_contra hne
        exact hmem (List.any_eq_true.mpr ⟨y, hy, by simpa using hne⟩)
      have hins : pyInsert acc x = acc ++ [x] := by
        unfold pyInsert
        rw [if_neg (by simpa using hmem)]
      have harith : acc.length + (x :: xs).length = (acc ++ [x]).length + xs.length := by
        simp only [List.length_cons, List.length_append, List.length_nil]
        omega
      rw [hins, harith, ih]
      constructor
      · rintro ⟨hdist, hfree'⟩
        refine ⟨?_, ?_⟩
        · show (xs.all (fun y => !(pyScalarEq x y)) && pyPairwiseDistinct xs) = true
          rw [Bool.and_eq_true]
          refine ⟨List.all_eq_true.mpr fun z hz => ?_, hdist⟩
          have hz' := hfree' z hz x (List.mem_append_right _ (List.mem_singleton_self x))
          rw [hz']
          rfl
        · intro z hz y hy
          rcases List.mem_cons.mp hz with rfl | hz
          · exact hfree y hy
          · exact hfree' z hz y (List.mem_append_left _ hy)
      · rintro ⟨hdist, hfree'⟩
        have hd : xs.all (fun y => !(pyScalarEq x y)) = true ∧ pyPairwiseDistinct xs = true := by
          have h' : (xs.all (fun y => !(pyScalarEq x y)) && pyPairwiseDistinct xs) = true := hdist
          rw [Bool.and_eq_true] at h'
          exact h'
        refine ⟨hd.2, fun z hz y hy => ?_⟩
        rcases List.mem_append.mp hy with hy | hy
        · exact hfree' z (List.mem_cons_of_mem _ hz) y hy
        · rw [List.mem_singleton.mp hy]
          have hzz := List.all_eq_true.mp hd.1 z hz
          simpa using hzz

/-- For a hashable 4-element list, `len(set(opts)) == 4` is exactly pairwise
distinctness. -/
theorem pySetSize_four_iff (xs : List JsonValue) (hlen : xs.length = 4) :
    ((xs.foldl pyInsert []).length = 4) ↔ pyPairwiseDistinct xs = true := by
  have h := foldl_pyInsert_length_eq_iff xs []
  simp only [List.length_nil, Nat.zero_add, hlen] at h
  rw [h]
  simp

/-! ### Validator acceptance characterization -/

theorem jHasKey_iff (kvs : List (String × JsonValue)) (k : String) :
    jHasKey kvs k = true ↔ ∃ v, jLookup kvs k = some v := by
  unfold jHasKey
  exact Option.isSome_iff_exists

theorem checkMembership_obj (kvs : List (String × JsonValue)) :
    checkMembership (.obj kvs) = .ok (jHasKey kvs "question_title" &&
      (jHasKey kvs "question_options" && jHasKey kvs "answer")) := by
  unfold checkMembership
  cases h1 : jHasKey kvs "question_title" <;>
    cases h2 : jHasKey kvs "question_options" <;>
      simp [pyInStr, h1, h2]

theorem checkQuestion_ok_iff (q : JsonValue) :
    checkQuestion q = .ok () ↔ goodQuestion q = true := by
  match q with
  | .null => simp [checkQuestion, checkMembership, pyInStr, goodQuestion]
  | .bool b => simp [checkQuestion, checkMembership, pyInStr, goodQuestion]
  | .num n => simp [checkQuestion, checkMembership, pyInStr, goodQuestion]
  | .str s =>
    cases hm : checkMembership (.str s) with
    | error e => simp [checkQuestion, hm, goodQuestion]
    | ok b => cases b <;> simp [checkQuestion, hm, goodQuestion, pyGetItem]
  | .arr xs =>
    cases hm : checkMembership (.arr xs) with
    | error e => simp [checkQuestion, hm, goodQuestion]
    | ok b => cases b <;> simp [checkQuestion, hm, goodQuestion, pyGetItem]
  | .obj kvs =>
    cases h1 : jHasKey kvs "question_title"
    · simp [checkQuestion, checkMembership_obj, h1, goodQuestion]
    cases h2 : jHasKey kvs "question_options"
    · simp [checkQuestion, checkMembership_obj, h1, h2, goodQuestion]
    cases h3 : jHasKey kvs "answer"
    · simp [checkQuestion, checkMembership_obj, h1, h2, h3, goodQuestion]
    obtain ⟨vopts, hv⟩ := (jHasKey_iff kvs "question_options").mp h2
    match vopts, hv with
    | .null, hv | .bool _, hv | .num _, hv | .str _, hv | .obj _, hv =>
      simp [checkQuestion, checkMembership_obj, h1, h2, h3, pyGetItem, hv,
        goodQuestion]
    | .arr xs, hv =>
      obtain ⟨va, hva⟩ := (jHasKey_iff kvs "answer").mp h3
      by_cases hlen : xs.length = 4
      · by_cases hhash : xs.all isHashable = true
        · have hset : pySetSize xs = .ok (xs.foldl pyInsert []).length := by
            unfold pySetSize
            rw [if_pos hhash]
          by_cases hsz : (xs.foldl pyInsert []).length = 4
          · have hdist := (pySetSize_four_iff xs hlen).mp hsz
            simp [checkQuestion, checkMembership_obj, h1, h2, h3, pyGetItem, hv,
              hva, hset, hlen, hsz, goodQuestion, hhash, hdist]
          · have hdist : pyPairwiseDistinct xs = false :=
              Bool.not_eq_true _ ▸
                (fun hd => hsz ((pySetSize_four_iff xs hlen).mpr hd))
            simp [checkQuestion, checkMembership_obj, h1, h2, h3, pyGetItem, hv,
              hva, hset, hlen, hsz, goodQuestion, hhash, hdist]
        · have hset : pySetSize xs = .error .typeError := by
            unfold pySetSize
            rw [if_neg hhash]
          simp [checkQuestion, checkMembership_obj, h1, h2, h3, pyGetItem, hv,
            hva, hset, hlen, goodQuestion, hhash]
      · simp [checkQuestion, checkMembership_obj, h1, h2, h3, pyGetItem, hv,
          hva, hlen, goodQuestion]

theorem checkQuestions_ok_iff (qs : List JsonValue) :
    checkQuestions qs = .ok () ↔ qs.all goodQuestion = true := by
  induction qs with
  | nil => simp [checkQuestions]
  | cons q qs ih =>
    unfold checkQuestions
    cases hq : checkQuestion q with
    | error e =>
      have hgood : goodQuestion q = false := by
        rcases hg : goodQuestion q
        · rfl
        · exact absurd ((checkQuestion_ok_iff q).mpr hg) (by simp [hq])
      simp [hgood]
    | ok u =>
      cases u
      have hgood : goodQuestion q = true := (checkQuestion_ok_iff q).mp hq
      simp [hgood, ih]

theorem validate_ok_iff (d : JsonValue) (n : Nat) :
    validate_quiz_dict d n = .ok () ↔ quizAccepts d n = true := by
  match d with
  | .null | .bool _ | .num _ | .str _ | .arr _ =>
    simp [validate_quiz_dict, quizAccepts]
  | .obj kvs =>
    cases h1 : jHasKey kvs "title"
    · simp [validate_quiz_dict, quizAccepts, h1]
    cases h2 : jHasKey kvs "description"
    · simp [validate_quiz_dict, quizAccepts, h1, h2]
    cases h3 : jHasKey kvs "questions"
    · simp [validate_quiz_dict, quizAccepts, h1, h2, h3]
    obtain ⟨vq, hv⟩ := (jHasKey_iff kvs "questions").mp h3
    match vq, hv with
    | .null, hv | .bool _, hv | .num _, hv | .str _, hv | .obj _, hv =>
      simp [validate_quiz_dict, quizAccepts, h1, h2, h3, hv]
    | .arr qs, hv =>
      by_cases hlen : qs.length = n
      · simp [validate_quiz_dict, quizAccepts, h1, h2, h3, hv, hlen,
          checkQuestions_ok_iff]
      · simp [validate_quiz_dict, quizAccepts, h1, h2, h3, hv, hlen]

/-! ### Error kinds on rejection -/

theorem checkQuestion_friendly_error (q : JsonValue)
    (hf : questionFriendly q = true) {e : PyErr}
    (he : checkQuestion q = .error e) : ∃ msg, e = .valueError msg := by
  match q with
  | .null | .bool _ | .num _ | .str _ | .arr _ => simp [questionFriendly] at hf
  | .obj kvs =>
    cases h1 : jHasKey kvs "question_title"
    · have hcomp : checkQuestion (.obj kvs) = .error (.valueError
          "Each question must have question_title, question_options, answer.") := by
        simp [checkQuestion, checkMembership_obj, h1]
      rw [hcomp] at he
      exact ⟨_, (Except.error.inj he).symm⟩
    cases h2 : jHasKey kvs "question_options"
    · have hcomp : checkQuestion (.obj kvs) = .error (.valueError
          "Each question must have question_title, question_options, answer.") := by
        simp [checkQuestion, checkMembership_obj, h1, h2]
      rw [hcomp] at he
      exact ⟨_, (Except.error.inj he).symm⟩
    cases h3 : jHasKey kvs "answer"
    · have hcomp : checkQuestion (.obj kvs) = .error (.valueError
          "Each question must have question_title, question_options, answer.") := by
        simp [checkQuestion, checkMembership_obj, h1, h2, h3]
      rw [hcomp] at he
      exact ⟨_, (Except.error.inj he).symm⟩
    obtain ⟨vopts, hv⟩ := (jHasKey_iff kvs "question_options").mp h2
    match vopts, hv with
    | .null, hv | .bool _, hv | .num _, hv | .str _, hv | .obj _, hv =>
      have hcomp : checkQuestion (.obj kvs) = .error (.valueError
          "Each question must have exactly 4 distinct options.") := by
        simp [checkQuestion, checkMembership_obj, h1, h2, h3, pyGetItem, hv]
      rw [hcomp] at he
      exact ⟨_, (Except.error.inj he).symm⟩
    | .arr xs, hv =>
      have hhash : xs.all isHashable = true := by
        have h := hf
        simp only [questionFriendly, hv] at h
        exact h
      obtain ⟨va, hva⟩ := (jHasKey_iff kvs "answer").mp h3
      have hset : pySetSize xs = .ok (xs.foldl pyInsert []).length := by
        unfold pySetSize
        rw [if_pos hhash]
      by_cases hlen : xs.length = 4
      · by_cases hsz : (xs.foldl pyInsert []).length = 4
        · by_cases hmem : xs.any (fun o => pyScalarEq va o) = true
          · have hcomp : checkQuestion (.obj kvs) = .ok () := by
              simp [checkQuestion, checkMembership_obj, h1, h2, h3, pyGetItem,
                hv, hva, hset, hlen, hsz, hmem]
            rw [hcomp] at he
            cases he
          · have hcomp : checkQuestion (.obj kvs) = .error (.valueError
                "Answer must be one of question_options.") := by
              simp [checkQuestion, checkMembership_obj, h1, h2, h3, pyGetItem,
                hv, hva, hset, hlen, hsz, hmem]
            rw [hcomp] at he
            exact ⟨_, (Except.error.inj he).symm⟩
        · have hcomp : checkQuestion (.obj kvs) = .error (.valueError
              "Each question must have exactly 4 distinct options.") := by
            simp [checkQuestion, checkMembership_obj, h1, h2, h3, pyGetItem,
              hv, hva, hset, hlen, hsz]
          rw [hcomp] at he
          exact ⟨_, (Except.error.inj he).symm⟩
      · have hcomp : checkQuestion (.obj kvs) = .error (.valueError
            "Each question must have exactly 4 distinct options.") := by
          simp [checkQuestion, checkMembership_obj, h1, h2, h3, pyGetItem,
            hv, hva, hlen]
        rw [hcomp] at he
        exact ⟨_, (Except.error.inj he).symm⟩

theorem checkQuestions_friendly_error (qs : List JsonValue)
    (hf : qs.all questionFriendly = true) {e : PyErr}
    (he : checkQuestions qs = .error e) : ∃ msg, e = .valueError msg := by
  induction qs with
  | nil => cases he
  | cons q qs ih =>
    rw [List.all_cons, Bool.and_eq_true] at hf
    unfold checkQuestions at he
    cases hq : checkQuestion q with
    | error e' =>
      rw [hq] at he
      exact (Except.error.inj he) ▸ checkQuestion_friendly_error q hf.1 hq
    | ok u =>
      cases u
      rw [hq] at he
      exact ih hf.2 he

theorem validate_friendly_error (d : JsonValue) (n : Nat)
    (hf : quizFriendly d = true) {e : PyErr}
    (he : validate_quiz_dict d n = .error e) : ∃ msg, e = .valueError msg := by
  match d with
  | .null | .bool _ | .num _ | .str _ | .arr _ =>
    unfold validate_quiz_dict at he
    exact ⟨_, (Except.error.inj he).symm⟩
  | .obj kvs =>
    cases h1 : jHasKey kvs "title"
    · have hcomp : validate_quiz_dict (.obj kvs) n = .error (.valueError
          "Quiz JSON must contain title, description, questions.") := by
        simp [validate_quiz_dict, h1]
      rw [hcomp] at he
      exact ⟨_, (Except.error.inj he).symm⟩
    cases h2 : jHasKey kvs "description"
    · have hcomp : validate_quiz_dict (.obj kvs) n = .error (.valueError
          "Quiz JSON must contain title, description, questions.") := by
        simp [validate_quiz_dict, h1, h2]
      rw [hcomp] at he
      exact ⟨_, (Except.error.inj he).symm⟩
    cases h3 : jHasKey kvs "questions"
    · have hcomp : validate_quiz_dict (.obj kvs) n = .error (.valueError
          "Quiz JSON must contain title, description, questions.") := by
        simp [validate_quiz_dict, h1, h2, h3]
      rw [hcomp] at he
      exact ⟨_, (Except.error.inj he).symm⟩
    obtain ⟨vq, hv⟩ := (jHasKey_iff kvs "questions").mp h3
    match vq, hv with
    | .null, hv | .bool _, hv | .num _, hv | .str _, hv | .obj _, hv =>
      have hcomp : validate_quiz_dict (.obj kvs) n = .error (.valueError
          ("Quiz must contain exactly " ++ toString n ++ " questions.")) := by
        simp [validate_quiz_dict, h1, h2, h3, hv]
      rw [hcomp] at he
      exact ⟨_, (Except.error.inj he).symm⟩
    | .arr qs, hv =>
      by_cases hlen : qs.length = n
      · have hcomp : validate_quiz_dict (.obj kvs) n = checkQuestions qs := by
          simp [validate_quiz_dict, h1, h2, h3, hv, hlen]
        rw [hcomp] at he
        have hf' : qs.all questionFriendly = true := by
          have h := hf
          simp only [quizFriendly, hv] at h
          exact h
        exact checkQuestions_friendly_error qs hf' he
      · have hcomp : validate_quiz_dict (.obj kvs) n = .error (.valueError
            ("Quiz must contain exactly " ++ toString n ++ " questions.")) := by
          simp [validate_quiz_dict, h1, h2, h3, hv, hlen]
        rw [hcomp] at he
        exact ⟨_, (Except.error.inj he).symm⟩

/-! ### Claim C2 -/

/-- Counterexample to claim C2 as stated: the payload whose single question
entry is the number `5` violates the schema (it is not accepted), but the
rejection raises `TypeError` (from `'question_title' in 5`), not the
`SchemaViolation` `ValueError` the claim requires for every violating
input. -/
theorem C2_counterexample :
    quizAccepts (.obj [("title", .null), ("description", .null),
      ("questions", .arr [.num 5])]) 1 = false ∧
    validate_quiz_dict (.obj [("title", .null), ("description", .null),
      ("questions", .arr [.num 5])]) 1 = .error .typeError :=
  ⟨rfl, rfl⟩

/-- Claim C2 (amended): `validate_quiz_dict` accepts exactly the payloads of
the claim's shape (with options additionally hashable, i.e. scalars); every
violating input is rejected with an error, and the error is the
`SchemaViolation` `ValueError` whenever the question entries are objects
whose option lists hold only hashable members (otherwise Python's dynamic
typing can raise `TypeError` instead, as in the counterexample). -/
theorem C2_validator_amended (d : JsonValue) (n : Nat) :
    (validate_quiz_dict d n = .ok () ↔ quizAccepts d n = true) ∧
    (quizAccepts d n = false → ∃ e, validate_quiz_dict d n = .error e) ∧
    (quizFriendly d = true → quizAccepts d n = false →
      ∃ msg, validate_quiz_dict d n = .error (.valueError msg)) := by
  refine ⟨validate_ok_iff d n, ?_, ?_⟩
  · intro hrej
    cases hval : validate_quiz_dict d n with
    | error e => exact ⟨e, rfl⟩
    | ok u =>
      cases u
      rw [(validate_ok_iff d n).mp hval] at hrej
      cases hrej
  · intro hf hrej
    cases hval : validate_quiz_dict d n with
    | error e =>
      obtain ⟨msg, rfl⟩ := validate_friendly_error d n hf hval
      exact ⟨msg, rfl⟩
    | ok u =>
      cases u
      rw [(validate_ok_iff d n).mp hval] at hrej
      cases hrej

/-- A well-formed one-question payload, used by witnesses. -/
def sampleQuizPayload : JsonValue :=
  .obj [("title", .str "t"), ("description", .str "d"),
    ("questions", .arr [.obj [("question_title", .str "q"),
      ("question_options", .arr [.str "A", .str "B", .str "C", .str "D"]),
      ("answer", .str "A")]])]

/-- Witness for C2: the sample payload is accepted at count 1, and rejected
with a `SchemaViolation` `ValueError` at count 2 (wrong question count). -/
theorem C2_witness :
    validate_quiz_dict sampleQuizPayload 1 = .ok () ∧
    (∃ msg, validate_quiz_dict sampleQuizPayload 2 = .error (.valueError msg)) :=
  ⟨(C2_validator_amended sampleQuizPayload 1).1.mpr (by rfl),
   (C2_validator_amended sampleQuizPayload 2).2.2 (by rfl) (by rfl)⟩

/-! ### Claim C9: key opacity of the validator -/

/-- Replace the value bound to key `k` (Python `d[k] = v` for a present key:
key order preserved, all other bindings untouched). -/
def jMapKey (kvs : List (String × JsonValue)) (k : String)
    (f : JsonValue → JsonValue) : List (String × JsonValue) :=
  kvs.map fun kv => if kv.1 == k then (kv.1, f kv.2) else kv

theorem jLookup_jMapKey_self (kvs : List (String × JsonValue)) (k : String)
    (f : JsonValue → JsonValue) :
    jLookup (jMapKey kvs k f) k = (jLookup kvs k).map f := by
  induction kvs with
  | nil => rfl
  | cons kv rest ih =>
    show jLookup ((if kv.1 == k then (kv.1, f kv.2) else kv) :: jMapKey rest k f) k
        = (jLookup (kv :: rest) k).map f
    unfold jLookup
    rw [ih]
    cases hl : jLookup rest k with
    | some v => simp
    | none =>
      simp only [Option.map_none]
      by_cases hkv : kv.1 == k
      · simp [hkv]
      · simp [hkv]

theorem jLookup_jMapKey_ne (kvs : List (String × JsonValue)) (k k' : String)
    (f : JsonValue → JsonValue) (h : k' ≠ k) :
    jLookup (jMapKey kvs k f) k' = jLookup kvs k' := by
  induction kvs with
  | nil => rfl
  | cons kv rest ih =>
    show jLookup ((if kv.1 == k then (kv.1, f kv.2) else kv) :: jMapKey rest k f) k'
        = jLookup (kv :: rest) k'
    unfold jLookup
    rw [ih]
    cases hl : jLookup rest k' with
    | some v => simp
    | none =>
      by_cases hkv : kv.1 == k
      · have hne : (kv.1 == k') = false := by
          have hk := eq_of_beq hkv
          refine beq_eq_false_iff_ne.mpr ?_
          rw [hk]
          exact fun hh => h hh.symm
        simp [hkv, hne]
      · simp [hkv]

theorem jHasKey_jMapKey (kvs : List (String × JsonValue)) (k k' : String)
    (f : JsonValue → JsonValue) :
    jHasKey (jMapKey kvs k f) k' = jHasKey kvs k' := by
  by_cases h : k' = k
  · subst h
    unfold jHasKey
    rw [jLookup_jMapKey_self]
    cases jLookup kvs k' <;> rfl
  · unfold jHasKey
    rw [jLookup_jMapKey_ne kvs k k' f h]

theorem jLookup_append_single (kvs : List (String × JsonValue))
    (k k' : String) (v : JsonValue) :
    jLookup (kvs ++ [(k, v)]) k'
      = if k == k' then some v else jLookup kvs k' := by
  induction kvs with
  | nil =>
    show jLookup [(k, v)] k' = _
    unfold jLookup
    rfl
  | cons kv rest ih =>
    show jLookup (kv :: (rest ++ [(k, v)])) k' = _
    unfold jLookup
    rw [ih]
    by_cases hk : k == k'
    · simp [hk]
    · simp [hk]

theorem jHasKey_append_single (kvs : List (String × JsonValue))
    (k k' : String) (v : JsonValue) :
    jHasKey (kvs ++ [(k, v)]) k' = ((k == k') || jHasKey kvs k') := by
  unfold jHasKey
  rw [jLookup_append_single]
  by_cases hk : k == k'
  · simp [hk]
  · simp [hk]

/-- Add one extra key to a question entry when it is an object (the only
case that can occur in an accepted payload). -/
def addKeyToQuestion (k : String) (v : JsonValue) : JsonValue → JsonValue
  | .obj qkvs => .obj (qkvs ++ [(k, v)])
  | q => q

/-- Add one extra key to every question entry of a payload. -/
def addKeyToQuestions (d : JsonValue) (k : String) (v : JsonValue) : JsonValue :=
  match d with
  | .obj kvs => .obj (jMapKey kvs "questions" fun q =>
      match q with
      | .arr qs => .arr (qs.map (addKeyToQuestion k v))
      | other => other)
  | d => d

theorem goodQuestion_addKey (q : JsonValue) (k : String) (v : JsonValue)
    (hk1 : k ≠ "question_title") (hk2 : k ≠ "question_options")
    (hk3 : k ≠ "answer") (hg : goodQuestion q = true) :
    goodQuestion (addKeyToQuestion k v q) = true := by
  match q with
  | .null | .bool _ | .num _ | .str _ | .arr _ => simp [goodQuestion] at hg
  | .obj qkvs =>
    show goodQuestion (.obj (qkvs ++ [(k, v)])) = true
    have hb1 : (k == "question_title") = false := beq_eq_false_iff_ne.mpr hk1
    have hb2 : (k == "question_options") = false := beq_eq_false_iff_ne.mpr hk2
    have hb3 : (k == "answer") = false := beq_eq_false_iff_ne.mpr hk3
    simp only [goodQuestion] at hg ⊢
    rw [jHasKey_append_single, jHasKey_append_single, jHasKey_append_single,
        jLookup_append_single, jLookup_append_single, hb1, hb2, hb3]
    simpa using hg

/-- Claim C9: the validator never inspects the values of `title` and
`description` nor any keys beyond the required ones.  From an accepted
payload, replacing the `title` or `description` value by an arbitrary JSON
value, adding an extra top-level key, or adding an extra key inside every
question entry yields a payload that is still accepted. -/
theorem C9_validator_opaque_fields (kvs : List (String × JsonValue)) (n : Nat)
    (v : JsonValue) (k : String)
    (hok : validate_quiz_dict (.obj kvs) n = .ok ()) :
    validate_quiz_dict (.obj (jMapKey kvs "title" fun _ => v)) n = .ok () ∧
    validate_quiz_dict (.obj (jMapKey kvs "description" fun _ => v)) n = .ok () ∧
    (k ≠ "title" → k ≠ "description" → k ≠ "questions" →
      validate_quiz_dict (.obj (kvs ++ [(k, v)])) n = .ok ()) ∧
    (k ≠ "question_title" → k ≠ "question_options" → k ≠ "answer" →
      validate_quiz_dict (addKeyToQuestions (.obj kvs) k v) n = .ok ()) := by
  have hacc := (validate_ok_iff (.obj kvs) n).mp hok
  obtain ⟨vq, hv⟩ : ∃ vq, jLookup kvs "questions" = some vq := by
    cases hl : jLookup kvs "questions" with
    | none => simp [quizAccepts, hl, jHasKey] at hacc
    | some vq => exact ⟨vq, rfl⟩
  have h1 : jHasKey kvs "title" = true := by
    by_contra h
    rw [Bool.not_eq_true] at h
    simp [quizAccepts, h] at hacc
  have h2 : jHasKey kvs "description" = true := by
    by_contra h
    rw [Bool.not_eq_true] at h
    simp [quizAccepts, h] at hacc
  have h3 : jHasKey kvs "questions" = true := by
    unfold jHasKey
    rw [hv]
    rfl
  match vq, hv with
  | .null, hv | .bool _, hv | .num _, hv | .str _, hv | .obj _, hv =>
    rw [quizAccepts] at hacc
    simp [hv, h1, h2, h3] at hacc
  | .arr qs, hv =>
    have hqs : qs.length = n ∧ qs.all goodQuestion = true := by
      rw [quizAccepts] at hacc
      simp [hv, h1, h2, h3] at hacc
      exact ⟨hacc.1, List.all_eq_true.mpr hacc.2⟩
    refine ⟨?_, ?_, ?_, ?_⟩
    · refine (validate_ok_iff _ n).mpr ?_
      rw [quizAccepts]
      simp [jHasKey_jMapKey, jLookup_jMapKey_ne kvs "title" "questions" _
        (by decide), h1, h2, h3, hv, hqs.1, hqs.2]
    · refine (validate_ok_iff _ n).mpr ?_
      rw [quizAccepts]
      simp [jHasKey_jMapKey, jLookup_jMapKey_ne kvs "description" "questions" _
        (by decide), h1, h2, h3, hv, hqs.1, hqs.2]
    · intro hk1 hk2 hk3
      refine (validate_ok_iff _ n).mpr ?_
      rw [quizAccepts]
      simp [jHasKey_append_single, jLookup_append_single, h1, h2, h3, hv,
        beq_eq_false_iff_ne.mpr hk3, hqs.1, hqs.2]
    · intro hk1 hk2 hk3
      refine (validate_ok_iff _ n).mpr ?_
      show quizAccepts (.obj (jMapKey kvs "questions" _)) n = true
      rw [quizAccepts]
      have hall : (qs.map (addKeyToQuestion k v)).all goodQuestion = true := by
        rw [List.all_map]
        refine List.all_eq_true.mpr fun q hq => ?_
        exact goodQuestion_addKey q k v hk1 hk2 hk3
          (List.all_eq_true.mp hqs.2 q hq)
      simp [jHasKey_jMapKey, jLookup_jMapKey_self, h1, h2, h3, hv, hqs.1, hall]

/-! ## LLM response unwrapping and JSON parsing (`generate_quiz_with_gemini`)

The response-text handling of `generate_quiz_with_gemini` is pure string
manipulation; it is embedded over `List Char`.  Model simplifications (each
marked, none load-bearing for the claims): `str.strip`/`str.splitlines`
cover the ASCII whitespace/line-break repertoire only, `str.lower` is ASCII,
and the JSON parser reads integers but not floats and handles the single-
character escapes but not `\uXXXX`. -/

/-- The backtick character (spelled via its code point). -/
def backtick : Char := Char.ofNat 96

/-- Python `str.strip()` whitespace (ASCII repertoire). -/
def isPySpace (c : Char) : Bool :=
  c = ' ' || c = '\t' || c = '\n' || c = '\x0b' || c = '\x0c' || c = '\r'

/-- Python `str.strip()`. -/
def pyStrip (cs : List Char) : List Char :=
  ((cs.dropWhile isPySpace).reverse.dropWhile isPySpace).reverse

/-- Split at the first occurrence of the ``` fence marker: `some (before,
after)` when present, `none` otherwise (so `isSome` is the `'```' in s`
test). -/
def splitFirstTicks : List Char → Option (List Char × List Char)
  | [] => none
  | c :: rest =>
    if c = backtick ∧ rest.take 2 = [backtick, backtick]
    then some ([], rest.drop 2)
    else (splitFirstTicks rest).map fun pr => (c :: pr.1, pr.2)

/-- `s.split("```")[1]`: the text between the first fence marker and the
next one (or to the end when there is no second marker).  Well-defined
whenever a marker is present, which is the only context the source uses. -/
def tickSplitPart1 (cs : List Char) : List Char :=
  match splitFirstTicks cs with
  | none => []
  | some pr =>
    match splitFirstTicks pr.2 with
    | none => pr.2
    | some pr2 => pr2.1

/-- `str.splitlines()` (ASCII line breaks `\n`, `\r`, `\r\n`). -/
def splitlinesGo (cur : List Char) : List Char → List (List Char)
  | [] => if cur.isEmpty then [] else [cur.reverse]
  | '\r' :: '\n' :: rest => cur.reverse :: splitlinesGo [] rest
  | '\r' :: rest => cur.reverse :: splitlinesGo [] rest
  | '\n' :: rest => cur.reverse :: splitlinesGo [] rest
  | c :: rest => splitlinesGo (c :: cur) rest

def pySplitlines (cs : List Char) : List (List Char) :=
  splitlinesGo [] cs

/-- `l.strip().lower() == 'json'`: a bare `json` language-tag line. -/
def isJsonTagLine (l : List Char) : Bool :=
  (pyStrip l).map Char.toLower == "json".toList

/-- The fence-handling step: when a fence marker is present, take the text
between the first pair of markers and drop bare `json` tag lines, rejoining
with `\n`. -/
def stripFences (cs : List Char) : List Char :=
  match splitFirstTicks cs with
  | none => cs
  | some _ =>
    List.intercalate ['\n']
      ((pySplitlines (tickSplitPart1 cs)).filter fun l => !(isJsonTagLine l))

/-- `s.find(c)` (index of first occurrence, `-1`-free form). -/
def pyFind (c : Char) : List Char → Option Nat
  | [] => none
  | x :: xs => if x = c then some 0 else (pyFind c xs).map (· + 1)

/-- `s.find(c)` with Python's `-1` convention. -/
def pyFindIdx (c : Char) (cs : List Char) : Int :=
  match pyFind c cs with
  | some i => (i : Int)
  | none => -1

/-- `s.rfind(c)` with Python's `-1` convention. -/
def pyRFindIdx (c : Char) (cs : List Char) : Int :=
  match pyFind c cs.reverse with
  | some i => (cs.length : Int) - 1 - (i : Int)
  | none => -1

/-- Normalization of one Python slice index: negative indices count from the
end, then clamp to `[0, len]`. -/
def pySliceIdx (cs : List Char) (i : Int) : Int :=
  if i < 0 then max (i + cs.length) 0 else min i cs.length

/-- Python slicing `s[a:b]` for integer indices. -/
def pySlice (cs : List Char) (a b : Int) : List Char :=
  if pySliceIdx cs a ≤ pySliceIdx cs b
  then (cs.drop (pySliceIdx cs a).toNat).take (pySliceIdx cs b - pySliceIdx cs a).toNat
  else []

/-- `json_str[json_str.find('{') : json_str.rfind('}') + 1]`. -/
def braceSlice (cs : List Char) : List Char :=
  pySlice cs (pyFindIdx '{' cs) (pyRFindIdx '}' cs + 1)

/-- `json_str.strip().startswith('{')`. -/
def startsWithBrace (cs : List Char) : Bool :=
  match pyStrip cs with
  | '{' :: _ => true
  | _ => false

/-- The brace-extraction step. -/
def stage2 (cs : List Char) : List Char :=
  if startsWithBrace cs then cs else braceSlice cs

/-- The complete unwrapping of the response text performed by
`generate_quiz_with_gemini` before `json.loads`. -/
def unwrap_llm_text (text : String) : List Char :=
  stage2 (stripFences (pyStrip text.toList))

/-! ### JSON parsing (`json.loads`) -/

def skipJsonWs (cs : List Char) : List Char :=
  cs.dropWhile fun c => c = ' ' || c = '\t' || c = '\n' || c = '\r'

/-- JSON string escapes (`\uXXXX` unsupported — model simplification). -/
def escChar : Char → Option Char
  | '"' => some '"'
  | '\\' => some '\\'
  | '/' => some '/'
  | 'b' => some (Char.ofNat 8)
  | 'f' => some (Char.ofNat 12)
  | 'n' => some '\n'
  | 'r' => some '\r'
  | 't' => some '\t'
  | _ => none

/-- Body of a JSON string after the opening quote; rejects raw control
characters as `json.loads` does. -/
def parseStringBody : List Char → Option (List Char × List Char)
  | [] => none
  | c :: rest =>
    if c = '"' then some ([], rest)
    else if c = '\\' then
      match rest with
      | [] => none
      | e :: rest2 =>
        match escChar e with
        | none => none
        | some ce => (parseStringBody rest2).map fun pr => (ce :: pr.1, pr.2)
    else if c.toNat < 32 then none
    else (parseStringBody rest).map fun pr => (c :: pr.1, pr.2)

def digitsToNat (ds : List Char) : Nat :=
  ds.foldl (fun acc c => acc * 10 + (c.toNat - 48)) 0

/-- JSON integer numbers (no leading zeros; a following `.`/`e`/`E` would be
a float, which the model does not cover and rejects). -/
def parseNumber (cs : List Char) : Option (Int × List Char) :=
  let p := match cs with
    | '-' :: rest => (true, rest)
    | _ => (false, cs)
  match p.2.takeWhile Char.isDigit, p.2.dropWhile Char.isDigit with
  | [], _ => none
  | ds, rest =>
    if 1 < ds.length ∧ ds.headD '0' = '0' then none
    else match rest with
      | '.' :: _ => none
      | 'e' :: _ => none
      | 'E' :: _ => none
      | _ => some (if p.1 then -(digitsToNat ds : Int) else (digitsToNat ds : Int), rest)

mutual

def parseJsonValue : Nat → List Char → Option (JsonValue × List Char)
  | 0, _ => none
  | fuel + 1, cs =>
    match skipJsonWs cs with
    | [] => none
    | c :: rest =>
      if c = 'n' then
        match rest with
        | 'u' :: 'l' :: 'l' :: rest2 => some (.null, rest2)
        | _ => none
      else if c = 't' then
        match rest with
        | 'r' :: 'u' :: 'e' :: rest2 => some (.bool true, rest2)
        | _ => none
      else if c = 'f' then
        match rest with
        | 'a' :: 'l' :: 's' :: 'e' :: rest2 => some (.bool false, rest2)
        | _ => none
      else if c = '"' then
        (parseStringBody rest).map fun pr => (.str (String.mk pr.1), pr.2)
      else if c = '[' then
        match skipJsonWs rest with
        | ']' :: rest2 => some (.arr [], rest2)
        | _ => (parseArrItems fuel rest).map fun pr => (.arr pr.1, pr.2)
      else if c = '{' then
        match skipJsonWs rest with
        | '}' :: rest2 => some (.obj [], rest2)
        | _ => (parseObjItems fuel rest).map fun pr => (.obj pr.1, pr.2)
      else
        (parseNumber (c :: rest)).map fun pr => (.num pr.1, pr.2)

def parseArrItems : Nat → List Char → Option (List JsonValue × List Char)
  | 0, _ => none
  | fuel + 1, cs =>
    match parseJsonValue fuel cs with
    | none => none
    | some (v, rest) =>
      match skipJsonWs rest with
      | ',' :: rest2 => (parseArrItems fuel rest2).map fun pr => (v :: pr.1, pr.2)
      | ']' :: rest2 => some ([v], rest2)
      | _ => none

def parseObjItems : Nat → List Char → Option (List (String × JsonValue) × List Char)
  | 0, _ => none
  | fuel + 1, cs =>
    match skipJsonWs cs with
    | '"' :: rest =>
      match parseStringBody rest with
      | none => none
      | some (kchars, rest2) =>
        match skipJsonWs rest2 with
        | ':' :: rest3 =>
          match parseJsonValue fuel rest3 with
          | none => none
          | some (v, rest4) =>
            match skipJsonWs rest4 with
            | ',' :: rest5 =>
              (parseObjItems fuel rest5).map fun pr =>
                ((String.mk kchars, v) :: pr.1, pr.2)
            | '}' :: rest5 => some ([(String.mk kchars, v)], rest5)
            | _ => none
        | _ => none
    | _ => none

end

/-- `json.loads` on the unwrapped text: parse one value, then only
whitespace may remain ("Extra data" otherwise). -/
def parseJson (cs : List Char) : Option JsonValue :=
  match parseJsonValue (2 * cs.length + 2) cs with
  | none => none
  | some (v, rest) => if skipJsonWs rest = [] then some v else none

/-- `json.loads(json_str)` applied to the unwrapped response text; a parse
failure is the `InvalidLlmOutput` `ValueError` (`json.JSONDecodeError`
subclasses `ValueError`; its position-specific message is modelled by a
fixed representative). -/
def parse_llm_text (text : String) : Except PyErr JsonValue :=
  match parseJson (unwrap_llm_text text) with
  | some v => .ok v
  | none => .error (.valueError "Invalid LLM JSON output.")

/-! ### C7 lemmas -/

theorem splitFirstTicks_append (a r : List Char) (ha : backtick ∉ a) :
    splitFirstTicks (a ++ backtick :: backtick :: backtick :: r) = some (a, r) := by
  induction a with
  | nil =>
    show splitFirstTicks (backtick :: backtick :: backtick :: r) = some ([], r)
    unfold splitFirstTicks
    rw [if_pos ⟨rfl, rfl⟩]
    rfl
  | cons x a ih =>
    have hx : x ≠ backtick := fun h => ha (h ▸ List.mem_cons_self ..)
    show splitFirstTicks (x :: (a ++ backtick :: backtick :: backtick :: r)) = _
    unfold splitFirstTicks
    rw [if_neg (fun hc => hx hc.1),
      ih fun h => ha (List.mem_cons_of_mem _ h)]
    rfl

theorem stripFences_extracts (a b c : List Char)
    (ha : backtick ∉ a) (hb : backtick ∉ b) :
    stripFences (a ++ backtick :: backtick :: backtick ::
        (b ++ backtick :: backtick :: backtick :: c))
      = List.intercalate ['\n']
          ((pySplitlines b).filter fun l => !(isJsonTagLine l)) := by
  have h1 := splitFirstTicks_append a
    (b ++ backtick :: backtick :: backtick :: c) ha
  have h2 := splitFirstTicks_append b c hb
  simp only [stripFences, tickSplitPart1, h1, h2]

theorem pyFind_append_of_not (c : Char) (u rest : List Char) (hu : c ∉ u) :
    pyFind c (u ++ rest) = (pyFind c rest).map (· + u.length) := by
  induction u with
  | nil => simp [Option.map_id']
  | cons x u ih =>
    have hx : x ≠ c := fun h => hu (h ▸ List.mem_cons_self ..)
    have hstep : pyFind c ((x :: u) ++ rest) = (pyFind c (u ++ rest)).map (· + 1) := by
      show (if x = c then some 0 else (pyFind c (u ++ rest)).map (· + 1))
          = (pyFind c (u ++ rest)).map (· + 1)
      rw [if_neg hx]
    rw [hstep, ih fun h => hu (List.mem_cons_of_mem _ h)]
    cases pyFind c rest
    · simp
    · simp [List.length_cons]
      omega

theorem pyFind_cons_self (c : Char) (rest : List Char) :
    pyFind c (c :: rest) = some 0 := by
  unfold pyFind
  rw [if_pos rfl]

theorem pySliceIdx_of_le (cs : List Char) (i : Nat) (h : i ≤ cs.length) :
    pySliceIdx cs (i : Int) = (i : Int) := by
  unfold pySliceIdx
  rw [if_neg (by omega)]
  have : (i : Int) ≤ (cs.length : Int) := by exact_mod_cast h
  exact min_eq_left this

theorem pySlice_nat (cs : List Char) (a b : Nat)
    (hab : a ≤ b) (hb : b ≤ cs.length) :
    pySlice cs (a : Int) (b : Int) = (cs.drop a).take (b - a) := by
  unfold pySlice
  rw [pySliceIdx_of_le cs a (le_trans hab hb), pySliceIdx_of_le cs b hb,
    if_pos (by exact_mod_cast hab),
    show ((a : Int)).toNat = a from by omega,
    show (((b : Int) - (a : Int))).toNat = b - a from by omega]

theorem braceSlice_extracts (u mid w : List Char)
    (hu : '{' ∉ u) (hw : '}' ∉ w) :
    braceSlice (u ++ '{' :: (mid ++ '}' :: w)) = '{' :: (mid ++ ['}']) := by
  have hfind : pyFind '{' (u ++ '{' :: (mid ++ '}' :: w)) = some u.length := by
    rw [pyFind_append_of_not _ _ _ hu, pyFind_cons_self]
    simp
  have hrev : (u ++ '{' :: (mid ++ '}' :: w)).reverse
      = w.reverse ++ '}' :: (mid.reverse ++ '{' :: u.reverse) := by
    simp [List.reverse_append, List.append_assoc]
  have hrfind : pyFind '}' (u ++ '{' :: (mid ++ '}' :: w)).reverse
      = some w.length := by
    rw [hrev, pyFind_append_of_not _ _ _
      (fun h => hw (List.mem_reverse.mp h)), pyFind_cons_self]
    simp
  have hlen : (u ++ '{' :: (mid ++ '}' :: w)).length
      = u.length + mid.length + w.length + 2 := by
    simp [List.length_append]
    omega
  have hf : pyFindIdx '{' (u ++ '{' :: (mid ++ '}' :: w)) = (u.length : Int) := by
    unfold pyFindIdx
    rw [hfind]
  have hr : pyRFindIdx '}' (u ++ '{' :: (mid ++ '}' :: w))
      = ((u.length + mid.length + 1 : Nat) : Int) := by
    unfold pyRFindIdx
    rw [hrfind, hlen]
    simp only [List.length_reverse]
    push_cast
    omega
  unfold braceSlice
  rw [hf, hr]
  have hcast : ((u.length + mid.length + 1 : Nat) : Int) + 1
      = ((u.length + mid.length + 2 : Nat) : Int) := by push_cast; omega
  rw [hcast, pySlice_nat _ _ _ (by omega) (by rw [hlen]; omega)]
  rw [List.drop_left]
  have htake : u.length + mid.length + 2 - u.length = mid.length + 2 := by omega
  rw [htake]
  have h1 : mid.length + 2 = (mid.length + 1) + 1 := by omega
  rw [h1, List.take_succ_cons]
  have h2 : mid.length + 1 = mid.length + 1 := rfl
  rw [show (mid ++ '}' :: w).take (mid.length + 1) = mid ++ ('}' :: w).take 1 from
    List.take_append 1]
  rfl

/-- Claim C7: the generator's unwrapping of the LLM response text.
Conjuncts: (1) the parse step is exactly the strip/fence/brace pipeline
followed by JSON parsing; (2) when fence markers are present, the content
between the first pair of markers is extracted and bare `json` tag lines
are removed; (3) a brace-starting remainder is parsed as-is; (4) a
remainder not starting with `{` is cut down to the substring between the
first `{` and the last `}`; (5) a parse failure of the unwrapped text is
the terminal `InvalidLlmOutput` `ValueError`. -/
theorem C7_llm_unwrap_parse :
    (∀ text : String, parse_llm_text text
        = match parseJson (stage2 (stripFences (pyStrip text.toList))) with
          | some v => Except.ok v
          | none => Except.error (.valueError "Invalid LLM JSON output.")) ∧
    (∀ a b c : List Char, backtick ∉ a → backtick ∉ b →
      stripFences (a ++ backtick :: backtick :: backtick ::
          (b ++ backtick :: backtick :: backtick :: c))
        = List.intercalate ['\n']
            ((pySplitlines b).filter fun l => !(isJsonTagLine l))) ∧
    (∀ cs : List Char, startsWithBrace cs = true → stage2 cs = cs) ∧
    (∀ u mid w : List Char, '{' ∉ u → '}' ∉ w →
      startsWithBrace (u ++ '{' :: (mid ++ '}' :: w)) = false →
      stage2 (u ++ '{' :: (mid ++ '}' :: w)) = '{' :: (mid ++ ['}'])) ∧
    (∀ text : String, parseJson (unwrap_llm_text text) = none →
      parse_llm_text text = .error (.valueError "Invalid LLM JSON output.")) := by
  refine ⟨fun text => rfl, stripFences_extracts, ?_, ?_, ?_⟩
  · intro cs h
    unfold stage2
    rw [if_pos h]
  · intro u mid w hu hw hb
    unfold stage2
    rw [if_neg (by simp [hb]), braceSlice_extracts u mid w hu hw]
  · intro text h
    unfold parse_llm_text
    rw [h]

/-- Scenario C witness for C7: a response wrapped in triple fences with a
leading `json` tag line parses successfully; plus concrete instances of the
fence-extraction and parse-failure conjuncts. -/
theorem C7_witness :
    parse_llm_text "```json\n\x7b\"title\": \"T\"\x7d\n```"
        = .ok (.obj [("title", .str "T")]) ∧
    stripFences ("x".toList ++ backtick :: backtick :: backtick ::
        ("json\n\x7b\x7d".toList ++ backtick :: backtick :: backtick :: "y".toList))
      = "\x7b\x7d".toList ∧
    parse_llm_text "no braces here" = .error (.valueError "Invalid LLM JSON output.") := by
  refine ⟨by rfl, ?_, ?_⟩
  · exact (C7_llm_unwrap_parse.2.1 _ _ _ (by decide) (by decide)).trans (by rfl)
  · exact C7_llm_unwrap_parse.2.2.2.2 _ (by rfl)

/-! ## Transcriber, generator, orchestrator

External collaborators (yt-dlp download, Whisper, Gemini, the database) are
modelled by their outcomes, collected in `PipelineEnv`.  The orchestrator
threads a `WorldState` (scratch files and database rows) and emits an event
trace recording, in execution order, each execution of the validator and
each database write. -/

inductive EngineErr where
  | fileNotFound (msg : String)
  | other (msg : String)

inductive DownloadOutcome where
  | providerError
  | fileMissing
  | ok

structure PipelineEnv where
  fetchInfo : Except FetchErr VideoInfo
  maxDurationSec : Option Int
  downloadOutcome : DownloadOutcome
  audioExt : String
  tmpDir : String
  ffmpegOnPath : Bool
  whisperResult : Except EngineErr String
  unlinkOk : Bool
  geminiApiKey : String
  llmResponse : Except String String
  quizInsertOk : Bool
  bulkInsertOk : Bool

structure QuizRow where
  id : Nat
  owner : Nat
  title : JsonValue
  description : JsonValue
  video_url : String

structure QuestionRow where
  quiz_id : Nat
  question_title : JsonValue
  question_options : JsonValue
  answer : JsonValue

structure DbState where
  quizzes : List QuizRow
  questions : List QuestionRow
  nextId : Nat

structure WorldState where
  files : List String
  db : DbState

inductive Event where
  | validationRun
  | quizInserted
  | questionsBulkInserted
deriving DecidableEq, Repr

/-- `transcribe_audio` from `services.py`: FFmpeg lookup, then the Whisper
call; `result.get('text', '').strip()` on success; a `FileNotFoundError`
mentioning ffmpeg becomes the FFmpeg `ValueError`, any other
`FileNotFoundError` is re-raised unwrapped (`raise` inside the first
`except` clause is not caught by the second), and any other engine failure
becomes the typed `TranscriptionFailed` `ValueError`. -/
def transcribe_audio (ffmpegOnPath : Bool) (engine : Except EngineErr String) :
    Except PyErr String :=
  if ¬ ffmpegOnPath then
    .error (.valueError "FFmpeg not found. Please install FFmpeg and add it to PATH.")
  else
    match engine with
    | .ok t => .ok (String.mk (pyStrip t.toList))
    | .error (.fileNotFound msg) =>
      if hasSubstr "ffmpeg".toList (msg.toList.map Char.toLower)
      then .error (.valueError "FFmpeg is not installed or not on PATH.")
      else .error (.fileNotFoundError msg)
    | .error (.other msg) =>
      .error (.valueError ("Transcription failed: " ++ msg))

/-- The scratch path `<tmp>/<vid>.<ext>` chosen by `download_audio`'s output
template (the extension is provider-determined). -/
def audioPath (env : PipelineEnv) (vid : String) : String :=
  env.tmpDir ++ "/" ++ vid ++ "." ++ env.audioExt

/-- `download_audio` from `services.py`: re-derives the id from the URL
(an extraction `ValueError` propagates uncaught), then either the provider
errors, or no file is produced, or the scratch file is created (the side
effect on `files`). -/
def download_audio (env : PipelineEnv) (url : String) (w : WorldState) :
    Except PyErr String × WorldState :=
  match extract_youtube_id url with
  | .error m => (.error (.valueError m), w)
  | .ok vid =>
    match env.downloadOutcome with
    | .providerError =>
      (.error (.valueError "Failed to download audio from Youtube."), w)
    | .fileMissing => (.error (.valueError "Audio download failed."), w)
    | .ok => (.ok (audioPath env vid), { w with files := audioPath env vid :: w.files })

/-- `generate_quiz_with_gemini` with the Gemini call abstracted to its
outcome (the transcript only feeds the prompt of that external call, so it
does not appear).  The second component is the trace of validator
executions inside the generation step. -/
def generate_quiz_with_gemini (apiKey : String) (llmResponse : Except String String)
    (num_questions : Nat) : Except PyErr JsonValue × List Event :=
  if apiKey = "" then (.error (.valueError "GEMINI_API_KEY is not configured."), [])
  else
    match llmResponse with
    | .error m => (.error (.valueError ("Gemini request failed: " ++ m)), [])
    | .ok text =>
      match parse_llm_text text with
      | .error e => (.error e, [])
      | .ok data =>
        match validate_quiz_dict data num_questions with
        | .error e => (.error e, [.validationRun])
        | .ok _ => (.ok data, [.validationRun])

/-- The `[Question(...) for q in quiz_dict['questions']]` comprehension
(key accesses in source order; any failure aborts before `bulk_create`). -/
def buildQuestionRows (quizId : Nat) : List JsonValue → Except PyErr (List QuestionRow)
  | [] => .ok []
  | q :: rest =>
    match pyGetItem q "question_title" with
    | .error e => .error e
    | .ok t =>
      match pyGetItem q "question_options" with
      | .error e => .error e
      | .ok o =>
        match pyGetItem q "answer" with
        | .error e => .error e
        | .ok a =>
          match buildQuestionRows quizId rest with
          | .error e => .error e
          | .ok rows =>
            .ok ({ quiz_id := quizId, question_title := t,
                   question_options := o, answer := a } :: rows)

/-- Database-level persistence tail of the orchestrator: everything after
transcription succeeded.  LLM generation (with its internal validation),
payload field access (`quiz_dict['title']` etc.), `Quiz.objects.create`
(kwargs evaluated first, then the row append), the row comprehension, and
`Question.objects.bulk_create`.  No file operations occur here, so the
state is just the database. -/
def persist_quiz_db (env : PipelineEnv) (owner num_questions : Nat)
    (canonical_url : String) (db : DbState) :
    Except PyErr QuizRow × DbState × List Event :=
  match generate_quiz_with_gemini env.geminiApiKey env.llmResponse num_questions with
  | (.error e, ev) => (.error e, db, ev)
  | (.ok quiz_dict, ev) =>
    match pyGetItem quiz_dict "title" with
    | .error e => (.error e, db, ev)
    | .ok titleV =>
      match pyGetItem quiz_dict "description" with
      | .error e => (.error e, db, ev)
      | .ok descV =>
        match pyGetItem quiz_dict "questions" with
        | .error e => (.error e, db, ev)
        | .ok (.arr qs) =>
          if env.quizInsertOk then
            let quiz : QuizRow :=
              { id := db.nextId, owner := owner, title := titleV,
                description := descV, video_url := canonical_url }
            let db1 : DbState :=
              { db with quizzes := db.quizzes ++ [quiz], nextId := db.nextId + 1 }
            match buildQuestionRows quiz.id qs with
            | .error e => (.error e, db1, ev ++ [Event.quizInserted])
            | .ok rows =>
              if env.bulkInsertOk then
                (.ok quiz, { db1 with questions := db1.questions ++ rows },
                 ev ++ [Event.quizInserted, Event.questionsBulkInserted])
              else (.error .dbError, db1, ev ++ [Event.quizInserted])
          else (.error .dbError, db, ev)
        -- iterating a non-list value cannot occur after validation; a scalar
        -- would raise TypeError in the comprehension
        | .ok _ => (.error .typeError, db, ev)

/-- `create_quiz_from_youtube` from `services.py`.  The `try/finally` around
transcription is modelled by applying the best-effort deletion (erase the
scratch path when deletion succeeds, keep it when the deletion itself
fails — `contextlib.suppress(Exception)` swallows that failure) to the
state before inspecting the transcription outcome; transcription touches no
files, so the ordering is observationally identical.  After transcription
the persistence tail only reads and writes the database (there is no
enclosing transaction, so a failing bulk write leaves the quiz row in
place). -/
def create_quiz_from_youtube (env : PipelineEnv) (url : String) (owner : Nat)
    (num_questions : Nat) (w : WorldState) :
    Except PyErr QuizRow × WorldState × List Event :=
  match extract_youtube_id url with
  | .error m => (.error (.valueError m), w, [])
  | .ok vid =>
    let canonical_url := YOUTUBE_CANONICAL vid
    match ensure_video_available env.fetchInfo env.maxDurationSec with
    | .error m => (.error (.valueError m), w, [])
    | .ok _ =>
      match download_audio env canonical_url w with
      | (.error e, w1) => (.error e, w1, [])
      | (.ok audio_path, w1) =>
        let w2 : WorldState :=
          if env.unlinkOk then { w1 with files := w1.files.erase audio_path } else w1
        match transcribe_audio env.ffmpegOnPath env.whisperResult with
        | .error e => (.error e, w2, [])
        | .ok _transcript =>
          let r := persist_quiz_db env owner num_questions canonical_url w2.db
          (r.1, { files := w2.files, db := r.2.1 }, r.2.2)

/-! ## Metadata-update serializers (`serializers.py`) -/

/-- `QuizUpdateSerializer.validate_video_url`. -/
def quizUpdate_validate_video_url (value : String) : Except String String :=
  match extract_youtube_id value with
  | .ok vid => .ok (YOUTUBE_CANONICAL vid)
  | .error _ => .error "Invalid YouTube URL."

/-- `QuizPartialUpdateSerializer.validate_video_url` (textually the same
method on the PATCH serializer). -/
def quizPartialUpdate_validate_video_url (value : String) : Except String String :=
  match extract_youtube_id value with
  | .ok vid => .ok (YOUTUBE_CANONICAL vid)
  | .error _ => .error "Invalid YouTube URL."

/-- The canonical-watch-URL shape. -/
def IsCanonicalWatchUrl (s : String) : Prop :=
  ∃ id : String, s = "https://www.youtube.com/watch?v=" ++ id ∧
    id.toList.length = 11 ∧ id.toList.all isIdChar = true

/-! ### Orchestrator lemmas -/

theorem pyGetItem_ok_of_hasKey (kvs : List (String × JsonValue)) (k : String)
    (h : jHasKey kvs k = true) :
    ∃ v, jLookup kvs k = some v ∧ pyGetItem (.obj kvs) k = .ok v := by
  obtain ⟨v, hv⟩ := (jHasKey_iff kvs k).mp h
  exact ⟨v, hv, by simp [pyGetItem, hv]⟩

theorem goodQuestion_dest {q : JsonValue} (h : goodQuestion q = true) :
    ∃ qkvs, q = .obj qkvs ∧ jHasKey qkvs "question_title" = true ∧
      jHasKey qkvs "question_options" = true ∧ jHasKey qkvs "answer" = true := by
  match q with
  | .null | .bool _ | .num _ | .str _ | .arr _ => simp [goodQuestion] at h
  | .obj qkvs =>
    simp only [goodQuestion, Bool.and_eq_true] at h
    exact ⟨qkvs, rfl, h.1.1.1, h.1.1.2, h.1.2⟩

theorem quizAccepts_dest {d : JsonValue} {n : Nat} (h : quizAccepts d n = true) :
    ∃ kvs qs, d = .obj kvs ∧ jHasKey kvs "title" = true ∧
      jHasKey kvs "description" = true ∧ jHasKey kvs "questions" = true ∧
      jLookup kvs "questions" = some (.arr qs) ∧ qs.length = n ∧
      qs.all goodQuestion = true := by
  match d with
  | .null | .bool _ | .num _ | .str _ | .arr _ => simp [quizAccepts] at h
  | .obj kvs =>
    cases hv : jLookup kvs "questions" with
    | none => simp [quizAccepts, jHasKey, hv] at h
    | some vq =>
      match vq, hv with
      | .null, hv | .bool _, hv | .num _, hv | .str _, hv | .obj _, hv =>
        simp [quizAccepts, hv] at h
      | .arr qs, hv =>
        simp only [quizAccepts, hv, Bool.and_eq_true, beq_iff_eq,
          List.all_eq_true] at h
        exact ⟨kvs, qs, rfl, h.1.1.1, h.1.1.2, h.1.2, hv, h.2.1,
          List.all_eq_true.mpr h.2.2⟩

theorem buildQuestionRows_ok (quizId : Nat) (qs : List JsonValue)
    (h : qs.all goodQuestion = true) :
    ∃ rows, buildQuestionRows quizId qs = .ok rows ∧
      rows.length = qs.length ∧ ∀ r ∈ rows, r.quiz_id = quizId := by
  induction qs with
  | nil => exact ⟨[], rfl, rfl, by simp⟩
  | cons q qs ih =>
    rw [List.all_cons, Bool.and_eq_true] at h
    obtain ⟨rows, hrows, hlen, hqid⟩ := ih h.2
    obtain ⟨qkvs, rfl, h1, h2, h3⟩ := goodQuestion_dest h.1
    obtain ⟨t, ht, hgt⟩ := pyGetItem_ok_of_hasKey qkvs "question_title" h1
    obtain ⟨o, ho, hgo⟩ := pyGetItem_ok_of_hasKey qkvs "question_options" h2
    obtain ⟨a, ha, hga⟩ := pyGetItem_ok_of_hasKey qkvs "answer" h3
    refine ⟨{ quiz_id := quizId, question_title := t, question_options := o,
              answer := a } :: rows, ?_, by simp [hlen], ?_⟩
    · unfold buildQuestionRows
      rw [hgt, hgo, hga, hrows]
    · intro r hr
      rcases List.mem_cons.mp hr with rfl | hr
      · rfl
      · exact hqid r hr

theorem generate_ok_dest {apiKey : String} {llm : Except String String}
    {n : Nat} {data : JsonValue} {ev : List Event}
    (h : generate_quiz_with_gemini apiKey llm n = (.ok data, ev)) :
    ev = [Event.validationRun] ∧ ∃ text, llm = .ok text ∧
      parse_llm_text text = .ok data ∧ validate_quiz_dict data n = .ok () := by
  unfold generate_quiz_with_gemini at h
  split at h
  · cases h
  · split at h
    · cases h
    · split at h
      · cases h
      · split at h
        · cases h
        · cases h
          refine ⟨rfl, _, rfl, ?_, ?_⟩ <;> assumption

theorem generate_error_dest {apiKey : String} {llm : Except String String}
    {n : Nat} {e : PyErr} {ev : List Event}
    (h : generate_quiz_with_gemini apiKey llm n = (.error e, ev)) :
    ev = [] ∨ ev = [Event.validationRun] := by
  unfold generate_quiz_with_gemini at h
  split at h
  · cases h
    exact Or.inl rfl
  · split at h
    · cases h
      exact Or.inl rfl
    · split at h
      · cases h
        exact Or.inl rfl
      · split at h
        · cases h
          exact Or.inr rfl
        · cases h

/-- Complete case characterization of the persistence tail: either it fails
without touching the database (trace empty or validation-only); or the
validated payload reached persistence, the quiz row was appended, and then
either the bulk question write succeeded (success result, full trace) or a
later step failed leaving exactly the orphan quiz row. -/
theorem persist_quiz_db_characterization (env : PipelineEnv)
    (owner n : Nat) (curl : String) (db : DbState) :
    ∃ res db' tr, persist_quiz_db env owner n curl db = (res, db', tr) ∧
      ((db' = db ∧ (∃ e, res = .error e) ∧
        (tr = [] ∨ tr = [Event.validationRun])) ∨
       (∃ text data quiz,
         env.llmResponse = .ok text ∧ parse_llm_text text = .ok data ∧
         validate_quiz_dict data n = .ok () ∧
         quiz.video_url = curl ∧ quiz.owner = owner ∧ quiz.id = db.nextId ∧
         db'.quizzes = db.quizzes ++ [quiz] ∧
         ((res = .ok quiz ∧
           (∃ rows, db'.questions = db.questions ++ rows ∧ rows.length = n ∧
             ∀ r ∈ rows, r.quiz_id = quiz.id) ∧
           tr = [Event.validationRun, Event.quizInserted,
                 Event.questionsBulkInserted]) ∨
          ((∃ e, res = .error e) ∧ db'.questions = db.questions ∧
           tr = [Event.validationRun, Event.quizInserted])))) := by
  cases hg : generate_quiz_with_gemini env.geminiApiKey env.llmResponse n with
  | mk gres ev =>
    cases gres with
    | error e =>
      have hc : persist_quiz_db env owner n curl db = (.error e, db, ev) := by
        unfold persist_quiz_db
        rw [hg]
      exact ⟨_, _, _, hc, Or.inl ⟨rfl, ⟨e, rfl⟩, generate_error_dest hg⟩⟩
    | ok data =>
      obtain ⟨hev, text, hllm, hparse, hval⟩ := generate_ok_dest hg
      subst hev
      obtain ⟨kvs, qs, rfl, h1, h2, h3, hv, hlen, hall⟩ :=
        quizAccepts_dest ((validate_ok_iff _ n).mp hval)
      obtain ⟨tV, htl, htg⟩ := pyGetItem_ok_of_hasKey kvs "title" h1
      obtain ⟨dV, hdl, hdg⟩ := pyGetItem_ok_of_hasKey kvs "description" h2
      have hqg : pyGetItem (.obj kvs) "questions" = .ok (.arr qs) := by
        simp [pyGetItem, hv]
      cases hins : env.quizInsertOk with
      | false =>
        have hc : persist_quiz_db env owner n curl db
            = (.error .dbError, db, [Event.validationRun]) := by
          simp only [persist_quiz_db, hg, htg, hdg, hqg, hins]
          rfl
        exact ⟨_, _, _, hc, Or.inl ⟨rfl, ⟨.dbError, rfl⟩, Or.inr rfl⟩⟩
      | true =>
        obtain ⟨rows, hrows, hrlen, hrid⟩ := buildQuestionRows_ok db.nextId qs hall
        cases hbulk : env.bulkInsertOk with
        | false =>
          have hc : persist_quiz_db env owner n curl db
              = (.error .dbError,
                 ⟨db.quizzes ++ [⟨db.nextId, owner, tV, dV, curl⟩],
                  db.questions, db.nextId + 1⟩,
                 [Event.validationRun, Event.quizInserted]) := by
            simp only [persist_quiz_db, hg, htg, hdg, hqg, hins, hrows, hbulk]
            rfl
          refine ⟨_, _, _, hc, Or.inr ⟨text, .obj kvs,
            ⟨db.nextId, owner, tV, dV, curl⟩, hllm, hparse, hval, rfl, rfl, rfl,
            rfl, Or.inr ⟨⟨.dbError, rfl⟩, rfl, rfl⟩⟩⟩
        | true =>
          have hc : persist_quiz_db env owner n curl db
              = (.ok ⟨db.nextId, owner, tV, dV, curl⟩,
                 ⟨db.quizzes ++ [⟨db.nextId, owner, tV, dV, curl⟩],
                  db.questions ++ rows, db.nextId + 1⟩,
                 [Event.validationRun, Event.quizInserted,
                  Event.questionsBulkInserted]) := by
            simp only [persist_quiz_db, hg, htg, hdg, hqg, hins, hrows, hbulk]
            rfl
          refine ⟨_, _, _, hc, Or.inr ⟨text, .obj kvs,
            ⟨db.nextId, owner, tV, dV, curl⟩, hllm, hparse, hval, rfl, rfl, rfl,
            rfl, Or.inl ⟨rfl, ⟨rows, rfl, by rw [hrlen, hlen], hrid⟩, rfl⟩⟩⟩

/-- Lift of the tail characterization through the pipeline front: a full
run either fails before any database write (database untouched, trace empty
or validation-only), or appends the canonical-URL quiz row and, exactly on
success, its question rows in one bulk append. -/
theorem create_run_characterization (env : PipelineEnv) (url : String)
    (owner n : Nat) (w : WorldState) :
    ∃ res w' tr, create_quiz_from_youtube env url owner n w = (res, w', tr) ∧
      ((w'.db = w.db ∧ (∃ e, res = .error e) ∧
        (tr = [] ∨ tr = [Event.validationRun])) ∨
       (∃ vid text data quiz,
         extract_youtube_id url = .ok vid ∧
         env.llmResponse = .ok text ∧ parse_llm_text text = .ok data ∧
         validate_quiz_dict data n = .ok () ∧
         quiz.video_url = YOUTUBE_CANONICAL vid ∧ quiz.owner = owner ∧
         w'.db.quizzes = w.db.quizzes ++ [quiz] ∧
         ((res = .ok quiz ∧
           (∃ rows, w'.db.questions = w.db.questions ++ rows ∧ rows.length = n ∧
             ∀ r ∈ rows, r.quiz_id = quiz.id) ∧
           tr = [Event.validationRun, Event.quizInserted,
                 Event.questionsBulkInserted]) ∨
          ((∃ e, res = .error e) ∧ w'.db.questions = w.db.questions ∧
           tr = [Event.validationRun, Event.quizInserted])))) := by
  cases hx : extract_youtube_id url with
  | error m =>
    have hc : create_quiz_from_youtube env url owner n w
        = (.error (.valueError m), w, []) := by
      simp only [create_quiz_from_youtube, hx]
    exact ⟨_, _, _, hc, Or.inl ⟨rfl, ⟨_, rfl⟩, Or.inl rfl⟩⟩
  | ok vid =>
    cases hav : ensure_video_available env.fetchInfo env.maxDurationSec with
    | error m =>
      have hc : create_quiz_from_youtube env url owner n w
          = (.error (.valueError m), w, []) := by
        simp only [create_quiz_from_youtube, hx, hav]
      exact ⟨_, _, _, hc, Or.inl ⟨rfl, ⟨_, rfl⟩, Or.inl rfl⟩⟩
    | ok info =>
      have hwf := extract_wf hx
      have hcanon : extract_youtube_id (YOUTUBE_CANONICAL vid) = .ok vid :=
        extract_watch_form vid hwf.1 hwf.2
      cases hdl : env.downloadOutcome with
      | providerError =>
        have hc : create_quiz_from_youtube env url owner n w
            = (.error (.valueError "Failed to download audio from Youtube."),
               w, []) := by
          simp only [create_quiz_from_youtube, hx, hav, download_audio, hcanon, hdl]
        exact ⟨_, _, _, hc, Or.inl ⟨rfl, ⟨_, rfl⟩, Or.inl rfl⟩⟩
      | fileMissing =>
        have hc : create_quiz_from_youtube env url owner n w
            = (.error (.valueError "Audio download failed."), w, []) := by
          simp only [create_quiz_from_youtube, hx, hav, download_audio, hcanon, hdl]
        exact ⟨_, _, _, hc, Or.inl ⟨rfl, ⟨_, rfl⟩, Or.inl rfl⟩⟩
      | ok =>
        obtain ⟨res, db', tr, hp, hcase⟩ :=
          persist_quiz_db_characterization env owner n (YOUTUBE_CANONICAL vid) w.db
        cases hu : env.unlinkOk with
        | false =>
          cases ht : transcribe_audio env.ffmpegOnPath env.whisperResult with
          | error e =>
            have hc : create_quiz_from_youtube env url owner n w
                = (.error e, ⟨audioPath env vid :: w.files, w.db⟩, []) := by
              simp only [create_quiz_from_youtube, hx, hav, download_audio,
                hcanon, hdl, hu, ht]
              rfl
            exact ⟨_, _, _, hc, Or.inl ⟨rfl, ⟨_, rfl⟩, Or.inl rfl⟩⟩
          | ok t =>
            have hc : create_quiz_from_youtube env url owner n w
                = (res, ⟨audioPath env vid :: w.files, db'⟩, tr) := by
              simp only [create_quiz_from_youtube, hx, hav, download_audio,
                hcanon, hdl, ht]
              rw [hu]
              simp only [Bool.false_eq_true, if_false, hp]
            refine ⟨_, _, _, hc, ?_⟩
            rcases hcase with ⟨hdb, he, htr⟩ | ⟨text, data, quiz, hrest⟩
            · exact Or.inl ⟨hdb, he, htr⟩
            · exact Or.inr ⟨vid, text, data, quiz, rfl, hrest.1, hrest.2.1,
                hrest.2.2.1, hrest.2.2.2.1, hrest.2.2.2.2.1,
                hrest.2.2.2.2.2.2.1, hrest.2.2.2.2.2.2.2⟩
        | true =>
          cases ht : transcribe_audio env.ffmpegOnPath env.whisperResult with
          | error e =>
            have hc : create_quiz_from_youtube env url owner n w
                = (.error e,
                   ⟨(audioPath env vid :: w.files).erase (audioPath env vid),
                    w.db⟩, []) := by
              simp only [create_quiz_from_youtube, hx, hav, download_audio,
                hcanon, hdl, hu, ht]
              rfl
            exact ⟨_, _, _, hc, Or.inl ⟨rfl, ⟨_, rfl⟩, Or.inl rfl⟩⟩
          | ok t =>
            have hc : create_quiz_from_youtube env url owner n w
                = (res,
                   ⟨(audioPath env vid :: w.files).erase (audioPath env vid),
                    db'⟩, tr) := by
              simp only [create_quiz_from_youtube, hx, hav, download_audio,
                hcanon, hdl, ht]
              rw [hu]
              simp only [eq_self_iff_true, if_true, hp]
            refine ⟨_, _, _, hc, ?_⟩
            rcases hcase with ⟨hdb, he, htr⟩ | ⟨text, data, quiz, hrest⟩
            · exact Or.inl ⟨hdb, he, htr⟩
            · exact Or.inr ⟨vid, text, data, quiz, rfl, hrest.1, hrest.2.1,
                hrest.2.2.1, hrest.2.2.2.1, hrest.2.2.2.2.1,
                hrest.2.2.2.2.2.2.1, hrest.2.2.2.2.2.2.2⟩

/-- A well-formed LLM response for a one-question quiz (used by the concrete
runs below). -/
def sampleLlmText : String :=
  "\x7b\"title\": \"T\", \"description\": \"D\", \"questions\": [\x7b\"question_title\": \"q\", \"question_options\": [\"A\", \"B\", \"C\", \"D\"], \"answer\": \"A\"\x7d]\x7d"

/-- An environment in which every collaborator succeeds. -/
def sampleEnv : PipelineEnv :=
  { fetchInfo := .ok ⟨some 100⟩, maxDurationSec := some 1800,
    downloadOutcome := .ok, audioExt := "m4a", tmpDir := "/tmp",
    ffmpegOnPath := true, whisperResult := .ok "transcript", unlinkOk := true,
    geminiApiKey := "k", llmResponse := .ok sampleLlmText,
    quizInsertOk := true, bulkInsertOk := true }

def emptyWorld : WorldState := ⟨[], ⟨[], [], 0⟩⟩

/-! ### Claim C5 -/

set_option maxRecDepth 40000 in
/-- Counterexample to claim C5 as stated: a fully successful concrete run
executes the validator exactly once (the `validationRun` inside the
generation step); the orchestrator performs no second validation at its
boundary before persisting, so "the validation is executed a second time"
is false. -/
theorem C5_counterexample :
    (create_quiz_from_youtube sampleEnv "https://youtu.be/AAAAAAAAAAA" 7 1
        emptyWorld).1
      = .ok ⟨0, 7, .str "T", .str "D",
          "https://www.youtube.com/watch?v=AAAAAAAAAAA"⟩ ∧
    (create_quiz_from_youtube sampleEnv "https://youtu.be/AAAAAAAAAAA" 7 1
        emptyWorld).2.2
      = [Event.validationRun, Event.quizInserted, Event.questionsBulkInserted] ∧
    (create_quiz_from_youtube sampleEnv "https://youtu.be/AAAAAAAAAAA" 7 1
        emptyWorld).2.2.count Event.validationRun = 1 :=
  ⟨rfl, rfl, rfl⟩

/-- Claim C5 (amended): in every successful run the validator is executed
exactly once, inside the generation step; the orchestrator adds no second
validation call at its boundary, but the persisted payload has passed
validation against the requested question count. -/
theorem C5_single_validation (env : PipelineEnv) (url : String) (owner n : Nat)
    (w : WorldState) (quiz : QuizRow)
    (h : (create_quiz_from_youtube env url owner n w).1 = .ok quiz) :
    (create_quiz_from_youtube env url owner n w).2.2
      = [Event.validationRun, Event.quizInserted, Event.questionsBulkInserted] ∧
    (create_quiz_from_youtube env url owner n w).2.2.count Event.validationRun = 1 ∧
    ∃ text data, env.llmResponse = .ok text ∧ parse_llm_text text = .ok data ∧
      validate_quiz_dict data n = .ok () := by
  obtain ⟨res, w', tr, hc, hcase⟩ := create_run_characterization env url owner n w
  rw [hc] at h ⊢
  simp only at h ⊢
  rcases hcase with ⟨-, ⟨e, hres⟩, -⟩ | ⟨vid, text, data, quiz', -, hllm, hparse,
    hval, -, -, -, hsub⟩
  · rw [h] at hres
    cases hres
  · rcases hsub with ⟨-, -, htr⟩ | ⟨⟨e, hres⟩, -, -⟩
    · exact ⟨htr, by rw [htr]; rfl, text, data, hllm, hparse, hval⟩
    · rw [h] at hres
      cases hres

set_option maxRecDepth 40000 in
/-- Witness for C5's amended theorem at the concrete successful run. -/
theorem C5_witness :
    (create_quiz_from_youtube sampleEnv "https://youtu.be/AAAAAAAAAAA" 7 1
        emptyWorld).2.2
      = [Event.validationRun, Event.quizInserted, Event.questionsBulkInserted] ∧
    (create_quiz_from_youtube sampleEnv "https://youtu.be/AAAAAAAAAAA" 7 1
        emptyWorld).2.2.count Event.validationRun = 1 ∧
    ∃ text data, sampleEnv.llmResponse = .ok text ∧
      parse_llm_text text = .ok data ∧ validate_quiz_dict data 1 = .ok () :=
  C5_single_validation sampleEnv "https://youtu.be/AAAAAAAAAAA" 7 1 emptyWorld
    ⟨0, 7, .str "T", .str "D", "https://www.youtube.com/watch?v=AAAAAAAAAAA"⟩
    (by rfl)

/-! ### Claim C1 -/

set_option maxRecDepth 40000 in
/-- Counterexample to claim C1 as stated: in a concrete run in which every
step succeeds except the final bulk question insert, the error leaves a
Quiz row stored with no Question rows — a partial result remains despite an
error during the persistence step (there is no enclosing transaction). -/
theorem C1_counterexample :
    (create_quiz_from_youtube { sampleEnv with bulkInsertOk := false }
        "https://youtu.be/AAAAAAAAAAA" 7 1 emptyWorld).1 = .error .dbError ∧
    (create_quiz_from_youtube { sampleEnv with bulkInsertOk := false }
        "https://youtu.be/AAAAAAAAAAA" 7 1 emptyWorld).2.1.db.quizzes
      = [⟨0, 7, .str "T", .str "D",
          "https://www.youtube.com/watch?v=AAAAAAAAAAA"⟩] ∧
    (create_quiz_from_youtube { sampleEnv with bulkInsertOk := false }
        "https://youtu.be/AAAAAAAAAAA" 7 1 emptyWorld).2.1.db.questions = [] :=
  ⟨rfl, rfl, rfl⟩

/-- Claim C1 (amended): no database write happens before the payload has
passed full validation; on success the quiz row and all its question rows
(count `n`, each referencing the quiz) are appended, the questions in one
bulk write; on error either nothing was stored, or — when the quiz insert
succeeded and a later persistence step failed — exactly the quiz row
remains with no question rows (persistence of the two entities is not
wrapped in one transaction). -/
theorem C1_persistence (env : PipelineEnv) (url : String) (owner n : Nat)
    (w : WorldState) :
    ((create_quiz_from_youtube env url owner n w).2.1.db ≠ w.db →
      ∃ text data, env.llmResponse = .ok text ∧ parse_llm_text text = .ok data ∧
        validate_quiz_dict data n = .ok ()) ∧
    (∀ quiz, (create_quiz_from_youtube env url owner n w).1 = .ok quiz →
      (create_quiz_from_youtube env url owner n w).2.1.db.quizzes
        = w.db.quizzes ++ [quiz] ∧
      ∃ rows, (create_quiz_from_youtube env url owner n w).2.1.db.questions
          = w.db.questions ++ rows ∧ rows.length = n ∧
          ∀ r ∈ rows, r.quiz_id = quiz.id) ∧
    (∀ e, (create_quiz_from_youtube env url owner n w).1 = .error e →
      (create_quiz_from_youtube env url owner n w).2.1.db = w.db ∨
      ∃ quiz, (create_quiz_from_youtube env url owner n w).2.1.db.quizzes
          = w.db.quizzes ++ [quiz] ∧
        (create_quiz_from_youtube env url owner n w).2.1.db.questions
          = w.db.questions) := by
  obtain ⟨res, w', tr, hc, hcase⟩ := create_run_characterization env url owner n w
  rw [hc]
  simp only
  rcases hcase with ⟨hdb, ⟨e, hres⟩, -⟩ | ⟨vid, text, data, quiz', -, hllm, hparse,
    hval, -, -, hquiz, hsub⟩
  · refine ⟨fun hne => absurd hdb hne, ?_, fun e' he' => Or.inl hdb⟩
    intro quiz hq
    rw [hres] at hq
    cases hq
  · refine ⟨fun _ => ⟨text, data, hllm, hparse, hval⟩, ?_, ?_⟩
    · intro quiz hq
      rcases hsub with ⟨hres, ⟨rows, hrows, hlen, hqid⟩, -⟩ | ⟨⟨e, hres⟩, -, -⟩
      · rw [hres] at hq
        cases hq
        exact ⟨hquiz, rows, hrows, hlen, hqid⟩
      · rw [hres] at hq
        cases hq
    · intro e he
      rcases hsub with ⟨hres, -, -⟩ | ⟨-, hqs, -⟩
      · rw [hres] at he
        cases he
      · exact Or.inr ⟨quiz', hquiz, hqs⟩

set_option maxRecDepth 40000 in
/-- Witness for C1's amended theorem at the concrete successful run. -/
theorem C1_witness :
    (create_quiz_from_youtube sampleEnv "https://youtu.be/AAAAAAAAAAA" 7 1
        emptyWorld).2.1.db.quizzes
      = emptyWorld.db.quizzes ++
          [⟨0, 7, .str "T", .str "D",
            "https://www.youtube.com/watch?v=AAAAAAAAAAA"⟩] ∧
    ∃ rows, (create_quiz_from_youtube sampleEnv "https://youtu.be/AAAAAAAAAAA"
        7 1 emptyWorld).2.1.db.questions
      = emptyWorld.db.questions ++ rows ∧ rows.length = 1 ∧
      ∀ r ∈ rows, r.quiz_id = 0 :=
  (C1_persistence sampleEnv "https://youtu.be/AAAAAAAAAAA" 7 1 emptyWorld).2.1
    ⟨0, 7, .str "T", .str "D", "https://www.youtube.com/watch?v=AAAAAAAAAAA"⟩
    (by rfl)

/-! ### Claim C3 -/

/-- Claim C3: in every run in which the audio download returned a scratch
path, (1) when the deletion succeeds the scratch file is absent from the
final state on every exit path, whatever the transcription outcome;
(2) a failure of the deletion itself is swallowed and never propagated —
the run's result, trace, and final database are identical to those of the
same run with a succeeding deletion; (3) a transcription engine failure
still propagates as the typed `TranscriptionFailed` `ValueError`. -/
theorem C3_scratch_cleanup (env : PipelineEnv) (url : String) (owner n : Nat)
    (w : WorldState) (vid : String) (info : VideoInfo)
    (hx : extract_youtube_id url = .ok vid)
    (hav : ensure_video_available env.fetchInfo env.maxDurationSec = .ok info)
    (hdl : env.downloadOutcome = .ok) :
    (env.unlinkOk = true → audioPath env vid ∉ w.files →
      audioPath env vid ∉ (create_quiz_from_youtube env url owner n w).2.1.files) ∧
    ((create_quiz_from_youtube env url owner n w).1
        = (create_quiz_from_youtube { env with unlinkOk := true } url owner n w).1 ∧
     (create_quiz_from_youtube env url owner n w).2.2
        = (create_quiz_from_youtube { env with unlinkOk := true } url owner n w).2.2 ∧
     (create_quiz_from_youtube env url owner n w).2.1.db
        = (create_quiz_from_youtube { env with unlinkOk := true } url owner n w).2.1.db) ∧
    (env.ffmpegOnPath = true → ∀ msg, env.whisperResult = .error (.other msg) →
      (create_quiz_from_youtube env url owner n w).1
        = .error (.valueError ("Transcription failed: " ++ msg))) := by
  have hwf := extract_wf hx
  have hcanon : extract_youtube_id (YOUTUBE_CANONICAL vid) = .ok vid :=
    extract_watch_form vid hwf.1 hwf.2
  cases ht : transcribe_audio env.ffmpegOnPath env.whisperResult with
  | error e =>
    have hc' : create_quiz_from_youtube { env with unlinkOk := true } url owner n w
        = (.error e,
           ⟨(audioPath env vid :: w.files).erase (audioPath env vid), w.db⟩,
           []) := by
      simp only [create_quiz_from_youtube, hx, hav, download_audio, hcanon,
        hdl, ht, if_true]
      rfl
    cases hu : env.unlinkOk with
    | false =>
      have hc : create_quiz_from_youtube env url owner n w
          = (.error e, ⟨audioPath env vid :: w.files, w.db⟩, []) := by
        simp only [create_quiz_from_youtube, hx, hav, download_audio, hcanon,
          hdl, ht]
        rw [hu]
        rfl
      refine ⟨?_, ?_, ?_⟩
      · intro habs
        exact absurd habs (by decide)
      · rw [hc, hc']
        exact ⟨rfl, rfl, rfl⟩
      · intro hff msg hwr
        rw [hff, hwr] at ht
        have hcomp : transcribe_audio true (.error (.other msg))
            = .error (.valueError ("Transcription failed: " ++ msg)) := rfl
        rw [hc]
        rw [hcomp] at ht
        cases ht
        rfl
    | true =>
      have hc : create_quiz_from_youtube env url owner n w
          = (.error e,
             ⟨(audioPath env vid :: w.files).erase (audioPath env vid), w.db⟩,
             []) := by
        simp only [create_quiz_from_youtube, hx, hav, download_audio, hcanon,
          hdl, ht]
        rw [hu]
        rfl
      refine ⟨?_, ?_, ?_⟩
      · intro _ hfresh
        rw [hc]
        simp only
        rw [List.erase_cons_head]
        exact hfresh
      · rw [hc, hc']
        exact ⟨rfl, rfl, rfl⟩
      · intro hff msg hwr
        rw [hff, hwr] at ht
        have hcomp : transcribe_audio true (.error (.other msg))
            = .error (.valueError ("Transcription failed: " ++ msg)) := rfl
        rw [hc]
        rw [hcomp] at ht
        cases ht
        rfl
  | ok t =>
    obtain ⟨res, db', tr, hp, -⟩ :=
      persist_quiz_db_characterization env owner n (YOUTUBE_CANONICAL vid) w.db
    have hpersist : persist_quiz_db
        ⟨env.fetchInfo, env.maxDurationSec, .ok, env.audioExt, env.tmpDir,
         env.ffmpegOnPath, env.whisperResult, true, env.geminiApiKey,
         env.llmResponse, env.quizInsertOk, env.bulkInsertOk⟩
        owner n (YOUTUBE_CANONICAL vid) w.db = (res, db', tr) := hp
    have hc' : create_quiz_from_youtube { env with unlinkOk := true } url owner n w
        = (res,
           ⟨(audioPath env vid :: w.files).erase (audioPath env vid), db'⟩,
           tr) := by
      simp only [create_quiz_from_youtube, hx, hav, download_audio, hcanon,
        hdl, ht, if_true, hpersist]
      rfl
    cases hu : env.unlinkOk with
    | false =>
      have hc : create_quiz_from_youtube env url owner n w
          = (res, ⟨audioPath env vid :: w.files, db'⟩, tr) := by
        simp only [create_quiz_from_youtube, hx, hav, download_audio, hcanon,
          hdl, ht]
        rw [hu]
        simp only [Bool.false_eq_true, if_false, hp]
      refine ⟨?_, ?_, ?_⟩
      · intro habs
        exact absurd habs (by decide)
      · rw [hc, hc']
        exact ⟨rfl, rfl, rfl⟩
      · intro hff msg hwr
        rw [hff, hwr] at ht
        cases ht
    | true =>
      have hc : create_quiz_from_youtube env url owner n w
          = (res,
             ⟨(audioPath env vid :: w.files).erase (audioPath env vid), db'⟩,
             tr) := by
        simp only [create_quiz_from_youtube, hx, hav, download_audio, hcanon,
          hdl, ht]
        rw [hu]
        simp only [eq_self_iff_true, if_true, hp]
      refine ⟨?_, ?_, ?_⟩
      · intro _ hfresh
        rw [hc]
        simp only
        rw [List.erase_cons_head]
        exact hfresh
      · rw [hc, hc']
        exact ⟨rfl, rfl, rfl⟩
      · intro hff msg hwr
        rw [hff, hwr] at ht
        cases ht

set_option maxRecDepth 40000 in
/-- Witness for C3: a concrete run whose transcription fails after the
download; the scratch file is absent afterwards, the run is insensitive to
the deletion outcome, and the typed `TranscriptionFailed` error surfaces. -/
theorem C3_witness :
    ("/tmp/AAAAAAAAAAA.m4a" ∉ (create_quiz_from_youtube
        { sampleEnv with whisperResult := .error (.other "boom") }
        "https://youtu.be/AAAAAAAAAAA" 7 1 emptyWorld).2.1.files) ∧
    (create_quiz_from_youtube
        { sampleEnv with whisperResult := .error (.other "boom") }
        "https://youtu.be/AAAAAAAAAAA" 7 1 emptyWorld).1
      = .error (.valueError "Transcription failed: boom") := by
  have h := C3_scratch_cleanup
    { sampleEnv with whisperResult := .error (.other "boom") }
    "https://youtu.be/AAAAAAAAAAA" 7 1 emptyWorld "AAAAAAAAAAA" ⟨some 100⟩
    (by rfl) (by rfl) (by rfl)
  exact ⟨h.1 (by rfl) (by decide), h.2.2 (by rfl) "boom" (by rfl)⟩

/-! ### Claim C10 -/

/-- Claim C10: every operation that stores a Quiz video URL stores it in
canonical form.  The pipeline persists only canonical URLs (both on the
success row and on any row left by a failed bulk write), and both metadata
serializers normalize a parseable `video_url` to the canonical watch URL
and reject a value from which no id can be extracted. -/
theorem C10_canonical_video_url :
    (∀ env url owner n w quiz,
      (create_quiz_from_youtube env url owner n w).1 = .ok quiz →
      IsCanonicalWatchUrl quiz.video_url) ∧
    (∀ env url owner n w row,
      row ∈ (create_quiz_from_youtube env url owner n w).2.1.db.quizzes →
      row ∈ w.db.quizzes ∨ IsCanonicalWatchUrl row.video_url) ∧
    (∀ value out, quizUpdate_validate_video_url value = .ok out →
      IsCanonicalWatchUrl out) ∧
    (∀ value m, extract_youtube_id value = .error m →
      quizUpdate_validate_video_url value = .error "Invalid YouTube URL.") ∧
    (∀ value out, quizPartialUpdate_validate_video_url value = .ok out →
      IsCanonicalWatchUrl out) ∧
    (∀ value m, extract_youtube_id value = .error m →
      quizPartialUpdate_validate_video_url value = .error "Invalid YouTube URL.") := by
  have hser : ∀ value out, (match extract_youtube_id value with
      | .ok vid => (.ok (YOUTUBE_CANONICAL vid) : Except String String)
      | .error _ => .error "Invalid YouTube URL.") = .ok out →
      IsCanonicalWatchUrl out := by
    intro value out h
    cases hx : extract_youtube_id value with
    | error m => rw [hx] at h; cases h
    | ok vid =>
      rw [hx] at h
      cases h
      exact ⟨vid, rfl, (extract_wf hx).1, (extract_wf hx).2⟩
  refine ⟨?_, ?_, ?_, ?_, ?_, ?_⟩
  · intro env url owner n w quiz h
    obtain ⟨res, w', tr, hc, hcase⟩ := create_run_characterization env url owner n w
    rw [hc] at h
    simp only at h
    rcases hcase with ⟨-, ⟨e, hres⟩, -⟩ | ⟨vid, text, data, quiz', hx, -, -, -,
      hurl, -, -, hsub⟩
    · rw [h] at hres
      cases hres
    · rcases hsub with ⟨hres, -, -⟩ | ⟨⟨e, hres⟩, -, -⟩
      · rw [h] at hres
        cases hres
        exact ⟨vid, hurl, (extract_wf hx).1, (extract_wf hx).2⟩
      · rw [h] at hres
        cases hres
  · intro env url owner n w row hmem
    obtain ⟨res, w', tr, hc, hcase⟩ := create_run_characterization env url owner n w
    rw [hc] at hmem
    simp only at hmem
    rcases hcase with ⟨hdb, -, -⟩ | ⟨vid, text, data, quiz', hx, -, -, -,
      hurl, -, hquiz, -⟩
    · rw [hdb] at hmem
      exact Or.inl hmem
    · rw [hquiz] at hmem
      rcases List.mem_append.mp hmem with hmem | hmem
      · exact Or.inl hmem
      · rw [List.mem_singleton.mp hmem]
        exact Or.inr ⟨vid, hurl, (extract_wf hx).1, (extract_wf hx).2⟩
  · intro value out h
    exact hser value out h
  · intro value m h
    unfold quizUpdate_validate_video_url
    rw [h]
  · intro value out h
    exact hser value out h
  · intro value m h
    unfold quizPartialUpdate_validate_video_url
    rw [h]

/-- Witness for C10 at concrete inputs: the PUT serializer normalizes a
short-form URL to the canonical watch URL (which has the canonical shape),
and rejects a URL with no extractable id. -/
theorem C10_witness :
    IsCanonicalWatchUrl "https://www.youtube.com/watch?v=AAAAAAAAAAA" ∧
    quizUpdate_validate_video_url "https://example.com/"
      = .error "Invalid YouTube URL." :=
  ⟨C10_canonical_video_url.2.2.1 "https://youtu.be/AAAAAAAAAAA"
      "https://www.youtube.com/watch?v=AAAAAAAAAAA" (by rfl),
   C10_canonical_video_url.2.2.2.1 "https://example.com/" "Unsupported URL."
      (by rfl)⟩

/-- Witness for C9: mutating the sample payload (numeric title, null
description, extra keys at both levels) keeps it accepted. -/
theorem C9_witness :
    validate_quiz_dict (.obj (jMapKey
      [("title", .str "t"), ("description", .str "d"),
       ("questions", .arr [.obj [("question_title", .str "q"),
         ("question_options", .arr [.str "A", .str "B", .str "C", .str "D"]),
         ("answer", .str "A")]])] "title" fun _ => .num 7)) 1 = .ok () ∧
    validate_quiz_dict (addKeyToQuestions sampleQuizPayload "hint" .null) 1 = .ok () :=
  ⟨(C9_validator_opaque_fields _ 1 (.num 7) "hint" (by rfl)).1,
   (C9_validator_opaque_fields _ 1 .null "hint" (by rfl)).2.2.2
     (by decide) (by decide) (by decide)⟩

end Quizly
